import Mathlib

/-!
SKINNY-128-384 (`skinny.c`): a shallow embedding and its verification.

Cells are `unsigned char` values, modelled as natural numbers below 256.  The two places
where the C code truncates a wider intermediate result to 8 bits (`rc << 4` and
`TK2[i] << 1`, both stored in an `unsigned char`) carry an explicit `% 256`; every other
stored value is shown to stay below 256 on byte inputs (the `_bytes` lemmas).  Buffers are
lists of cells.  Every array read and write is checked: a function returns `none` as soon as
an index leaves its array, so a result `some _` says that no access was out of range.
The `for` loops with a constant bound run their body for `i = 0, ..., bound - 1`; the
`while (round < 56)` loop of `skinny` tests its condition on the round counter and is
bounded by a fuel argument, and the theorems hold for every fuel of at least 57.
-/

namespace Skinny

/-! ## Constant tables -/

/-- SKINNY Sbox (`static const uint8_t S8 [256]`). -/
def S8 : List Nat := [
  0x65, 0x4c, 0x6a, 0x42, 0x4b, 0x63, 0x43, 0x6b, 0x55, 0x75, 0x5a, 0x7a, 0x53, 0x73, 0x5b, 0x7b,
  0x35, 0x8c, 0x3a, 0x81, 0x89, 0x33, 0x80, 0x3b, 0x95, 0x25, 0x98, 0x2a, 0x90, 0x23, 0x99, 0x2b,
  0xe5, 0xcc, 0xe8, 0xc1, 0xc9, 0xe0, 0xc0, 0xe9, 0xd5, 0xf5, 0xd8, 0xf8, 0xd0, 0xf0, 0xd9, 0xf9,
  0xa5, 0x1c, 0xa8, 0x12, 0x1b, 0xa0, 0x13, 0xa9, 0x05, 0xb5, 0x0a, 0xb8, 0x03, 0xb0, 0x0b, 0xb9,
  0x32, 0x88, 0x3c, 0x85, 0x8d, 0x34, 0x84, 0x3d, 0x91, 0x22, 0x9c, 0x2c, 0x94, 0x24, 0x9d, 0x2d,
  0x62, 0x4a, 0x6c, 0x45, 0x4d, 0x64, 0x44, 0x6d, 0x52, 0x72, 0x5c, 0x7c, 0x54, 0x74, 0x5d, 0x7d,
  0xa1, 0x1a, 0xac, 0x15, 0x1d, 0xa4, 0x14, 0xad, 0x02, 0xb1, 0x0c, 0xbc, 0x04, 0xb4, 0x0d, 0xbd,
  0xe1, 0xc8, 0xec, 0xc5, 0xcd, 0xe4, 0xc4, 0xed, 0xd1, 0xf1, 0xdc, 0xfc, 0xd4, 0xf4, 0xdd, 0xfd,
  0x36, 0x8e, 0x38, 0x82, 0x8b, 0x30, 0x83, 0x39, 0x96, 0x26, 0x9a, 0x28, 0x93, 0x20, 0x9b, 0x29,
  0x66, 0x4e, 0x68, 0x41, 0x49, 0x60, 0x40, 0x69, 0x56, 0x76, 0x58, 0x78, 0x50, 0x70, 0x59, 0x79,
  0xa6, 0x1e, 0xaa, 0x11, 0x19, 0xa3, 0x10, 0xab, 0x06, 0xb6, 0x08, 0xba, 0x00, 0xb3, 0x09, 0xbb,
  0xe6, 0xce, 0xea, 0xc2, 0xcb, 0xe3, 0xc3, 0xeb, 0xd6, 0xf6, 0xda, 0xfa, 0xd3, 0xf3, 0xdb, 0xfb,
  0x31, 0x8a, 0x3e, 0x86, 0x8f, 0x37, 0x87, 0x3f, 0x92, 0x21, 0x9e, 0x2e, 0x97, 0x27, 0x9f, 0x2f,
  0x61, 0x48, 0x6e, 0x46, 0x4f, 0x67, 0x47, 0x6f, 0x51, 0x71, 0x5e, 0x7e, 0x57, 0x77, 0x5f, 0x7f,
  0xa2, 0x18, 0xae, 0x16, 0x1f, 0xa7, 0x17, 0xaf, 0x01, 0xb2, 0x0e, 0xbe, 0x07, 0xb7, 0x0f, 0xbf,
  0xe2, 0xca, 0xee, 0xc6, 0xcf, 0xe7, 0xc7, 0xef, 0xd2, 0xf2, 0xde, 0xfe, 0xd7, 0xf7, 0xdf, 0xff]

/-- Constants for the AddConstants operation (`static const unsigned char constants[62]`). -/
def constants : List Nat := [
  0x01, 0x03, 0x07, 0x0f, 0x1f, 0x3e, 0x3d, 0x3b, 0x37, 0x2f, 0x1e, 0x3c, 0x39, 0x33, 0x27, 0x0e, 0x1d,
  0x3a, 0x35, 0x2b, 0x16, 0x2c, 0x18, 0x30, 0x21, 0x02, 0x05, 0x0b, 0x17, 0x2e, 0x1c, 0x38, 0x31,
  0x23, 0x06, 0x0d, 0x1b, 0x36, 0x2d, 0x1a, 0x34, 0x29, 0x12, 0x24, 0x08, 0x11, 0x22, 0x04, 0x09,
  0x13, 0x26, 0x0c, 0x19, 0x32, 0x25, 0x0a, 0x15, 0x2a, 0x14, 0x28, 0x10, 0x20]

/-- Binary matrix used in the MixColumns operation (`static const uint8_t M[4][4]`). -/
def M : List (List Nat) := [
  [1, 0, 1, 1],
  [1, 0, 0, 0],
  [0, 1, 1, 0],
  [1, 0, 1, 0]]

/-- Permutation indices for the key permutation in AddRoundTweakey
(`static const uint8_t key_perm [16]`). -/
def key_perm : List Nat := [9, 15, 8, 13, 10, 14, 12, 11, 0, 1, 2, 3, 4, 5, 6, 7]

/-! ## Memory and control primitives -/

/-- Checked array read `a[i]`: `none` when `i` is outside `a`. -/
def load {α : Type} : List α → Nat → Option α
  | [], _ => none
  | x :: _, 0 => some x
  | _ :: xs, i + 1 => load xs i

/-- Checked array write `a[i] = v`: `none` when `i` is outside `a`. -/
def store {α : Type} : List α → Nat → α → Option (List α)
  | [], _, _ => none
  | _ :: xs, 0, v => some (v :: xs)
  | x :: xs, i + 1, v => (store xs i v).map (x :: ·)

/-- Checked `memcpy(dst, src + off, n)`: the first `n` cells of `dst` are replaced by
`src[off .. off+n)`; `none` when the read leaves `src` or the write leaves `dst`. -/
def memcpy (dst src : List Nat) (off n : Nat) : Option (List Nat) :=
  if off + n ≤ src.length ∧ n ≤ dst.length then
    some ((src.drop off).take n ++ dst.drop n)
  else none

/-- Checked reads `{a[i0], a[i1], ...}` of an array initialiser, in order. -/
def gather (a : List Nat) (idx : List Nat) : Option (List Nat) :=
  idx.mapM (fun i => load a i)

/-- Checked read `m[j][l]` of a two-dimensional array. -/
def get2 (m : List (List Nat)) (j l : Nat) : Option Nat :=
  (load m j).bind (fun row => load row l)

/-- Checked write `m[j][l] = v` of a two-dimensional array. -/
def store2 (m : List (List Nat)) (j l v : Nat) : Option (List (List Nat)) :=
  (load m j).bind (fun row => (store row l v).bind (fun row' => store m j row'))

/-- Iterations `i, i+1, ..., i+n-1` of a loop body that may fail. -/
def loopFrom {σ : Type} (body : Nat → σ → Option σ) : Nat → Nat → σ → Option σ
  | _, 0, s => some s
  | i, n + 1, s => (body i s).bind (loopFrom body (i + 1) n)

/-- The C loop `for (int i = 0; i < bound; ++i) body`, whose body does not assign `i`. -/
def forLoop {σ : Type} (bound : Nat) (body : Nat → σ → Option σ) (s : σ) : Option σ :=
  loopFrom body 0 bound s

/-- The C loop `while (cond) body`, run for at most `fuel` evaluations of the condition;
`none` when the fuel runs out before the condition turns false, or the body fails. -/
def whileLoop {σ : Type} (cond : σ → Bool) (body : σ → Option σ) : Nat → σ → Option σ
  | 0, _ => none
  | fuel + 1, s => if cond s then (body s).bind (whileLoop cond body fuel) else some s

/-! ## The five round steps -/

/-- Performs the SubCells operation (`subCells`). -/
def subCells (IS : List Nat) : Option (List Nat) :=
  forLoop 16 (fun i IS => do
    let x ← load IS i
    let v ← load S8 x
    store IS i v) IS

/-- Performs the AddConstants operation (`addConstants`). -/
def addConstants (IS : List Nat) (round : Nat) : Option (List Nat) := do
  let rc ← load constants round
  let c0 := (rc <<< 4) % 256
  let c0 := c0 >>> 4
  let c1 := rc >>> 4
  let IS ← store IS 0 ((← load IS 0) ^^^ c0)
  let IS ← store IS 4 ((← load IS 4) ^^^ c1)
  let IS ← store IS 8 ((← load IS 8) ^^^ 0x02)
  pure IS

/-- The permutation loop `for i < 16: TK[i] = temp_key[key_perm[i]]`. -/
def permuteLane (TK temp_key : List Nat) : Option (List Nat) :=
  forLoop 16 (fun i TK => do
    let pi ← load key_perm i
    let v ← load temp_key pi
    store TK i v) TK

/-- The loop `LFSR for TK2` over the first 8 cells. -/
def lfsrTK2 (TK2 : List Nat) : Option (List Nat) :=
  forLoop 8 (fun i TK2 => do
    let x7 := (← load TK2 i) >>> 7
    let x5 := (← load TK2 i) >>> 5
    let x5 := x5 &&& 0x01
    let x7 := x7 &&& 0x01
    let tempx := ((← load TK2 i) <<< 1) % 256
    let tempx := tempx ||| (x5 ^^^ x7)
    store TK2 i tempx) TK2

/-- The loop `LFSR for TK3` over the first 8 cells. -/
def lfsrTK3 (TK3 : List Nat) : Option (List Nat) :=
  forLoop 8 (fun i TK3 => do
    let x0 ← load TK3 i
    let x6 := (← load TK3 i) >>> 6
    let x0 := x0 &&& 0x01
    let x6 := x6 &&& 0x01
    let tempx := (← load TK3 i) >>> 1
    let tempx := tempx ||| ((x0 ^^^ x6) <<< 7)
    store TK3 i tempx) TK3

/-- The loop `XOR the keys to text to be ciphered` over the first 8 cells. -/
def xorTweakey (IS TK1 TK2 TK3 : List Nat) : Option (List Nat) :=
  forLoop 8 (fun j IS => do
    store IS j ((← load IS j) ^^^ (← load TK1 j) ^^^ (← load TK2 j) ^^^ (← load TK3 j))) IS

/-- Performs the AddRoundTweakey operation (`addRoundTweakey`); returns the new
`(IS, TK1, TK2, TK3)`. -/
def addRoundTweakey (IS TK1 TK2 TK3 : List Nat) :
    Option (List Nat × List Nat × List Nat × List Nat) := do
  let IS ← xorTweakey IS TK1 TK2 TK3
  let temp_key := List.replicate 16 0
  let temp_key ← memcpy temp_key TK1 0 16
  let TK1 ← permuteLane TK1 temp_key
  let temp_key ← memcpy temp_key TK2 0 16
  let TK2 ← permuteLane TK2 temp_key
  let TK2 ← lfsrTK2 TK2
  let temp_key ← memcpy temp_key TK3 0 16
  let TK3 ← permuteLane TK3 temp_key
  let TK3 ← lfsrTK3 TK3
  pure (IS, TK1, TK2, TK3)

/-- Performs the ShiftRows operation (`shiftRows`). -/
def shiftRows (IS : List Nat) : Option (List Nat) := do
  let temp2 ← gather IS [0, 1, 2, 3, 7, 4, 5, 6,
                10, 11, 8, 9, 13, 14, 15, 12]
  memcpy IS temp2 0 16

/-- Performs the MixColumns operation (`mixColumns`). -/
def mixColumns (IS : List Nat) : Option (List Nat) := do
  let IS_as_matrix := [
    ← gather IS [0, 1, 2, 3],
    ← gather IS [4, 5, 6, 7],
    ← gather IS [8, 9, 10, 11],
    ← gather IS [12, 13, 14, 15]]
  let ans := List.replicate 4 (List.replicate 4 0x00)
  let ans ← forLoop 4 (fun i ans =>
    forLoop 4 (fun j ans =>
      forLoop 4 (fun l ans => do
        if (← get2 M j l) == 1 then
          store2 ans j i ((← get2 ans j i) ^^^ (← get2 IS_as_matrix l i))
        else pure ans) ans) ans) ans
  memcpy IS ans.flatten 0 16

/-! ## The encryption driver -/

/-- Local variables of `skinny` that live across the round loop. -/
structure Locals where
  round : Nat
  IS : List Nat
  TK1 : List Nat
  TK2 : List Nat
  TK3 : List Nat


/-- Body of the loop `while(round < 56)` of `skinny`. -/
def roundBody (s : Locals) : Option Locals := do
  let IS ← subCells s.IS
  let IS ← addConstants IS s.round
  let (IS, TK1, TK2, TK3) ← addRoundTweakey IS s.TK1 s.TK2 s.TK3
  let IS ← shiftRows IS
  let IS ← mixColumns IS
  pure { round := s.round + 1, IS := IS, TK1 := TK1, TK2 := TK2, TK3 := TK3 }

/-- SKINNY-128-384 block cipher encryption (`skinny`): under the 48-byte tweakey at `k`,
encrypt the 16-byte plaintext at `p`; the result is the 16 bytes stored at `c`.
`fuel` bounds the number of evaluations of the loop condition. -/
def skinny (fuel : Nat) (p k : List Nat) : Option (List Nat) := do
  let round := 0
  let IS := List.replicate 16 0
  let IS ← memcpy IS p 0 16
  let TK1 := List.replicate 16 0
  let TK1 ← memcpy TK1 k 0 16
  let TK2 := List.replicate 16 0
  let TK2 ← memcpy TK2 k 16 16
  let TK3 := List.replicate 16 0
  let TK3 ← memcpy TK3 k 32 16
  let s ← whileLoop (fun s => decide (s.round < 56)) roundBody fuel
    { round := round, IS := IS, TK1 := TK1, TK2 := TK2, TK3 := TK3 }
  let c := List.replicate 16 0
  memcpy c s.IS 0 16

/-! ## Vocabulary of the specification -/

/-- An `n`-byte buffer: exactly `n` cells, each an 8-bit value. -/
def IsBytes (n : Nat) (xs : List Nat) : Prop := xs.length = n ∧ ∀ x ∈ xs, x < 256

instance (n : Nat) (xs : List Nat) : Decidable (IsBytes n xs) := by
  unfold IsBytes; infer_instance

/-- Cell `i` of a buffer (0 outside the buffer; only used inside buffers of known length). -/
def cell (xs : List Nat) (i : Nat) : Nat := (load xs i).getD 0

/-- Bit `k` of `x`, as 0 or 1. -/
def bit (k x : Nat) : Nat := x / 2 ^ k % 2

/-- The TK2 feedback update in the words of the specification: shift left by one bit
inside 8 bits and OR in `bit5 XOR bit7` (both taken before the shift) as the new bit 0. -/
def L2 (x : Nat) : Nat := (x <<< 1) % 256 ||| (bit 5 x ^^^ bit 7 x)

/-- The TK3 feedback update in the words of the specification: shift right by one bit
and OR in `bit0 XOR bit6` (both taken before the shift) as the new bit 7. -/
def L3 (x : Nat) : Nat := x >>> 1 ||| (bit 0 x ^^^ bit 6 x) <<< 7

/-- One round in the words of the specification: SubCells, then AddConstants with the round
index `r`, then AddRoundTweakey (which also advances the lanes), then ShiftRows, then
MixColumns, on the tuple `(State, TK1, TK2, TK3)`. -/
def cipherRound (r : Nat) (st : List Nat × List Nat × List Nat × List Nat) :
    Option (List Nat × List Nat × List Nat × List Nat) :=
  (subCells st.1).bind fun IS =>
  (addConstants IS r).bind fun IS =>
  (addRoundTweakey IS st.2.1 st.2.2.1 st.2.2.2).bind fun q =>
  (shiftRows q.1).bind fun IS =>
  (mixColumns IS).bind fun IS =>
  some (IS, q.2)

/-- The algorithm in the words of the specification: start from `State = p`,
`TK1 = k[0..16)`, `TK2 = k[16..32)`, `TK3 = k[32..48)`, run the rounds `r = 0, 1, ..., 55`
in that order, and read the ciphertext out of the state. -/
def skinnySpec (p k : List Nat) : Option (List Nat) :=
  ((List.range 56).foldlM (fun st r => cipherRound r st)
    (p, k.take 16, (k.drop 16).take 16, (k.drop 32).take 16)).map (fun st => st.1)

/-- The four buffers of the round loop are 16-byte buffers. -/
def LanesOk (s : Locals) : Prop :=
  IsBytes 16 s.IS ∧ IsBytes 16 s.TK1 ∧ IsBytes 16 s.TK2 ∧ IsBytes 16 s.TK3

/-- The locals of `skinny` with round counter `r` and buffers `(State, TK1, TK2, TK3)`. -/
def mkLocals (r : Nat) (st : List Nat × List Nat × List Nat × List Nat) : Locals :=
  { round := r, IS := st.1, TK1 := st.2.1, TK2 := st.2.2.1, TK3 := st.2.2.2 }

/-- Plaintext of the SKINNY-128-384 known-answer vector. -/
def katP : List Nat :=
  [0xa3, 0x99, 0x4b, 0x66, 0xad, 0x85, 0xa3, 0x45, 0x9f, 0x44, 0xe9, 0x2b, 0x08, 0xf5, 0x50, 0xcb]

/-- Tweakey (TK1 || TK2 || TK3) of the SKINNY-128-384 known-answer vector. -/
def katK : List Nat := [
  0xdf, 0x88, 0x95, 0x48, 0xcf, 0xc7, 0xea, 0x52, 0xd2, 0x96, 0x33, 0x93, 0x01, 0x79, 0x74, 0x49,
  0xab, 0x58, 0x8a, 0x34, 0xa4, 0x7f, 0x1a, 0xb2, 0xdf, 0xe9, 0xc8, 0x29, 0x3f, 0xbe, 0xa9, 0xa5,
  0xab, 0x1a, 0xfa, 0xc2, 0x61, 0x10, 0x12, 0xcd, 0x8c, 0xef, 0x95, 0x26, 0x18, 0xc3, 0xeb, 0xe8]

/-- Ciphertext of the SKINNY-128-384 known-answer vector. -/
def katC : List Nat :=
  [0x94, 0xec, 0xf5, 0x89, 0xe2, 0x01, 0x7c, 0x60, 0x1b, 0x38, 0xc6, 0x34, 0x6a, 0x10, 0xdc, 0xfa]

/-- Row `q` of a state viewed as a row-major 4x4 matrix: cells `4q .. 4q+3`. -/
def row (IS : List Nat) (q : Nat) : List Nat := (IS.drop (4 * q)).take 4

/-- Cell-wise XOR of two rows. -/
def xorRows (a b : List Nat) : List Nat := List.zipWith (fun x y => x ^^^ y) a b

/-- MixColumns in the closed form of the specification: `row0' = row0 ^ row2 ^ row3`,
`row1' = row0`, `row2' = row1 ^ row2`, `row3' = row0 ^ row2`. -/
def mixColumnsClosed (IS : List Nat) : List Nat :=
  xorRows (xorRows (row IS 0) (row IS 2)) (row IS 3)
    ++ row IS 0
    ++ xorRows (row IS 1) (row IS 2)
    ++ xorRows (row IS 0) (row IS 2)

/-- AddConstants with the explicit mask `(rc >> 4) & 0x03` on `c1` that the specification
recommends; otherwise as `addConstants`. -/
def addConstantsMasked (IS : List Nat) (round : Nat) : Option (List Nat) := do
  let rc ← load constants round
  let c0 := (rc <<< 4) % 256
  let c0 := c0 >>> 4
  let c1 := (rc >>> 4) &&& 0x03
  let IS ← store IS 0 ((← load IS 0) ^^^ c0)
  let IS ← store IS 4 ((← load IS 4) ^^^ c1)
  let IS ← store IS 8 ((← load IS 8) ^^^ 0x02)
  pure IS

/-- One step of the SKINNY 6-bit round-constant LFSR:
`((x << 1) & 0x3F) | (bit5 x ^ bit4 x ^ 1)`. -/
def rcStep (x : Nat) : Nat := (x <<< 1) &&& 0x3F ||| (bit 5 x ^^^ bit 4 x ^^^ 1)

/-- The first `n` states of the round-constant LFSR after `x`: `rcStep x`, `rcStep (rcStep x)`,
and so on. -/
def rcSeq : Nat → Nat → List Nat
  | 0, _ => []
  | n + 1, x => rcStep x :: rcSeq n (rcStep x)

/-- One round of the variant cipher that applies AddRoundTweakey first and then SubCells and
AddConstants, followed by ShiftRows and MixColumns. -/
def reorderedRound (r : Nat) (st : List Nat × List Nat × List Nat × List Nat) :
    Option (List Nat × List Nat × List Nat × List Nat) :=
  (addRoundTweakey st.1 st.2.1 st.2.2.1 st.2.2.2).bind fun q =>
  (subCells q.1).bind fun IS =>
  (addConstants IS r).bind fun IS =>
  (shiftRows IS).bind fun IS =>
  (mixColumns IS).bind fun IS =>
  some (IS, q.2)

/-- The variant cipher: 56 rounds `reorderedRound` from the same initial state and lanes as
`skinny`. -/
def skinnyReordered (p k : List Nat) : Option (List Nat) :=
  ((List.range 56).foldlM (fun st r => reorderedRound r st)
    (p, k.take 16, (k.drop 16).take 16, (k.drop 32).take 16)).map (fun st => st.1)

/-- Body of the round loop of `skinny` with the two steps AddConstants and AddRoundTweakey
swapped. -/
def roundBodySwapped (s : Locals) : Option Locals := do
  let IS ← subCells s.IS
  let (IS, TK1, TK2, TK3) ← addRoundTweakey IS s.TK1 s.TK2 s.TK3
  let IS ← addConstants IS s.round
  let IS ← shiftRows IS
  let IS ← mixColumns IS
  pure { round := s.round + 1, IS := IS, TK1 := TK1, TK2 := TK2, TK3 := TK3 }

/-- The function `skinny` with `roundBodySwapped` as the body of its round loop. -/
def skinnySwapped (fuel : Nat) (p k : List Nat) : Option (List Nat) := do
  let round := 0
  let IS := List.replicate 16 0
  let IS ← memcpy IS p 0 16
  let TK1 := List.replicate 16 0
  let TK1 ← memcpy TK1 k 0 16
  let TK2 := List.replicate 16 0
  let TK2 ← memcpy TK2 k 16 16
  let TK3 := List.replicate 16 0
  let TK3 ← memcpy TK3 k 32 16
  let s ← whileLoop (fun s => decide (s.round < 56)) roundBodySwapped fuel
    { round := round, IS := IS, TK1 := TK1, TK2 := TK2, TK3 := TK3 }
  let c := List.replicate 16 0
  memcpy c s.IS 0 16

/-! ## Symbolic evaluation of the steps on a 16-cell buffer -/

theorem length16_cases {xs : List Nat} (h : xs.length = 16) :
    ∃ a0 a1 a2 a3 a4 a5 a6 a7 a8 a9 a10 a11 a12 a13 a14 a15,
      xs = [a0, a1, a2, a3, a4, a5, a6, a7, a8, a9, a10, a11, a12, a13, a14, a15] := by
  match xs, h with
  | [a0, a1, a2, a3, a4, a5, a6, a7, a8, a9, a10, a11, a12, a13, a14, a15], _ =>
    exact ⟨a0, a1, a2, a3, a4, a5, a6, a7, a8, a9, a10, a11, a12, a13, a14, a15, rfl⟩

theorem isBytes16_iff (a0 a1 a2 a3 a4 a5 a6 a7 a8 a9 a10 a11 a12 a13 a14 a15 : Nat) :
    IsBytes 16 [a0, a1, a2, a3, a4, a5, a6, a7, a8, a9, a10, a11, a12, a13, a14, a15] ↔
      a0 < 256 ∧ a1 < 256 ∧ a2 < 256 ∧ a3 < 256 ∧ a4 < 256 ∧ a5 < 256 ∧ a6 < 256 ∧ a7 < 256 ∧
      a8 < 256 ∧ a9 < 256 ∧ a10 < 256 ∧ a11 < 256 ∧ a12 < 256 ∧ a13 < 256 ∧ a14 < 256 ∧
      a15 < 256 := by
  simp [IsBytes]

theorem shiftRows_eval (a0 a1 a2 a3 a4 a5 a6 a7 a8 a9 a10 a11 a12 a13 a14 a15 : Nat) :
    shiftRows [a0, a1, a2, a3, a4, a5, a6, a7, a8, a9, a10, a11, a12, a13, a14, a15]
      = some [a0, a1, a2, a3, a7, a4, a5, a6, a10, a11, a8, a9, a13, a14, a15, a12] := rfl

theorem xorTweakey_eval (a0 a1 a2 a3 a4 a5 a6 a7 a8 a9 a10 a11 a12 a13 a14 a15 : Nat)
    (b0 b1 b2 b3 b4 b5 b6 b7 b8 b9 b10 b11 b12 b13 b14 b15 : Nat)
    (c0 c1 c2 c3 c4 c5 c6 c7 c8 c9 c10 c11 c12 c13 c14 c15 : Nat)
    (d0 d1 d2 d3 d4 d5 d6 d7 d8 d9 d10 d11 d12 d13 d14 d15 : Nat) :
    xorTweakey [a0, a1, a2, a3, a4, a5, a6, a7, a8, a9, a10, a11, a12, a13, a14, a15]
      [b0, b1, b2, b3, b4, b5, b6, b7, b8, b9, b10, b11, b12, b13, b14, b15]
      [c0, c1, c2, c3, c4, c5, c6, c7, c8, c9, c10, c11, c12, c13, c14, c15]
      [d0, d1, d2, d3, d4, d5, d6, d7, d8, d9, d10, d11, d12, d13, d14, d15]
    = some [a0 ^^^ b0 ^^^ c0 ^^^ d0, a1 ^^^ b1 ^^^ c1 ^^^ d1, a2 ^^^ b2 ^^^ c2 ^^^ d2,
        a3 ^^^ b3 ^^^ c3 ^^^ d3, a4 ^^^ b4 ^^^ c4 ^^^ d4, a5 ^^^ b5 ^^^ c5 ^^^ d5,
        a6 ^^^ b6 ^^^ c6 ^^^ d6, a7 ^^^ b7 ^^^ c7 ^^^ d7,
        a8, a9, a10, a11, a12, a13, a14, a15] := rfl

theorem permuteLane_eval (a0 a1 a2 a3 a4 a5 a6 a7 a8 a9 a10 a11 a12 a13 a14 a15 : Nat)
    (b0 b1 b2 b3 b4 b5 b6 b7 b8 b9 b10 b11 b12 b13 b14 b15 : Nat) :
    permuteLane [a0, a1, a2, a3, a4, a5, a6, a7, a8, a9, a10, a11, a12, a13, a14, a15]
      [b0, b1, b2, b3, b4, b5, b6, b7, b8, b9, b10, b11, b12, b13, b14, b15]
    = some [b9, b15, b8, b13, b10, b14, b12, b11, b0, b1, b2, b3, b4, b5, b6, b7] := rfl

theorem lfsrTK2_eval (a0 a1 a2 a3 a4 a5 a6 a7 a8 a9 a10 a11 a12 a13 a14 a15 : Nat) :
    lfsrTK2 [a0, a1, a2, a3, a4, a5, a6, a7, a8, a9, a10, a11, a12, a13, a14, a15]
    = some [(a0 <<< 1) % 256 ||| ((a0 >>> 5 &&& 1) ^^^ (a0 >>> 7 &&& 1)),
        (a1 <<< 1) % 256 ||| ((a1 >>> 5 &&& 1) ^^^ (a1 >>> 7 &&& 1)),
        (a2 <<< 1) % 256 ||| ((a2 >>> 5 &&& 1) ^^^ (a2 >>> 7 &&& 1)),
        (a3 <<< 1) % 256 ||| ((a3 >>> 5 &&& 1) ^^^ (a3 >>> 7 &&& 1)),
        (a4 <<< 1) % 256 ||| ((a4 >>> 5 &&& 1) ^^^ (a4 >>> 7 &&& 1)),
        (a5 <<< 1) % 256 ||| ((a5 >>> 5 &&& 1) ^^^ (a5 >>> 7 &&& 1)),
        (a6 <<< 1) % 256 ||| ((a6 >>> 5 &&& 1) ^^^ (a6 >>> 7 &&& 1)),
        (a7 <<< 1) % 256 ||| ((a7 >>> 5 &&& 1) ^^^ (a7 >>> 7 &&& 1)),
        a8, a9, a10, a11, a12, a13, a14, a15] := rfl

theorem lfsrTK3_eval (a0 a1 a2 a3 a4 a5 a6 a7 a8 a9 a10 a11 a12 a13 a14 a15 : Nat) :
    lfsrTK3 [a0, a1, a2, a3, a4, a5, a6, a7, a8, a9, a10, a11, a12, a13, a14, a15]
    = some [a0 >>> 1 ||| ((a0 &&& 1) ^^^ (a0 >>> 6 &&& 1)) <<< 7,
        a1 >>> 1 ||| ((a1 &&& 1) ^^^ (a1 >>> 6 &&& 1)) <<< 7,
        a2 >>> 1 ||| ((a2 &&& 1) ^^^ (a2 >>> 6 &&& 1)) <<< 7,
        a3 >>> 1 ||| ((a3 &&& 1) ^^^ (a3 >>> 6 &&& 1)) <<< 7,
        a4 >>> 1 ||| ((a4 &&& 1) ^^^ (a4 >>> 6 &&& 1)) <<< 7,
        a5 >>> 1 ||| ((a5 &&& 1) ^^^ (a5 >>> 6 &&& 1)) <<< 7,
        a6 >>> 1 ||| ((a6 &&& 1) ^^^ (a6 >>> 6 &&& 1)) <<< 7,
        a7 >>> 1 ||| ((a7 &&& 1) ^^^ (a7 >>> 6 &&& 1)) <<< 7,
        a8, a9, a10, a11, a12, a13, a14, a15] := rfl

theorem memcpy16_eval (d0 d1 d2 d3 d4 d5 d6 d7 d8 d9 d10 d11 d12 d13 d14 d15 : Nat)
    (a0 a1 a2 a3 a4 a5 a6 a7 a8 a9 a10 a11 a12 a13 a14 a15 : Nat) :
    memcpy [d0, d1, d2, d3, d4, d5, d6, d7, d8, d9, d10, d11, d12, d13, d14, d15]
      [a0, a1, a2, a3, a4, a5, a6, a7, a8, a9, a10, a11, a12, a13, a14, a15] 0 16
    = some [a0, a1, a2, a3, a4, a5, a6, a7, a8, a9, a10, a11, a12, a13, a14, a15] := rfl

theorem mixColumns_eval (a0 a1 a2 a3 a4 a5 a6 a7 a8 a9 a10 a11 a12 a13 a14 a15 : Nat) :
    mixColumns [a0, a1, a2, a3, a4, a5, a6, a7, a8, a9, a10, a11, a12, a13, a14, a15]
    = some [0 ^^^ a0 ^^^ a8 ^^^ a12, 0 ^^^ a1 ^^^ a9 ^^^ a13, 0 ^^^ a2 ^^^ a10 ^^^ a14,
        0 ^^^ a3 ^^^ a11 ^^^ a15,
        0 ^^^ a0, 0 ^^^ a1, 0 ^^^ a2, 0 ^^^ a3,
        0 ^^^ a4 ^^^ a8, 0 ^^^ a5 ^^^ a9, 0 ^^^ a6 ^^^ a10, 0 ^^^ a7 ^^^ a11,
        0 ^^^ a0 ^^^ a8, 0 ^^^ a1 ^^^ a9, 0 ^^^ a2 ^^^ a10, 0 ^^^ a3 ^^^ a11] := rfl

theorem subCells_eval (a0 a1 a2 a3 a4 a5 a6 a7 a8 a9 a10 a11 a12 a13 a14 a15 : Nat)
    (v0 v1 v2 v3 v4 v5 v6 v7 v8 v9 v10 v11 v12 v13 v14 v15 : Nat)
    (h0 : load S8 a0 = some v0) (h1 : load S8 a1 = some v1) (h2 : load S8 a2 = some v2)
    (h3 : load S8 a3 = some v3) (h4 : load S8 a4 = some v4) (h5 : load S8 a5 = some v5)
    (h6 : load S8 a6 = some v6) (h7 : load S8 a7 = some v7) (h8 : load S8 a8 = some v8)
    (h9 : load S8 a9 = some v9) (h10 : load S8 a10 = some v10) (h11 : load S8 a11 = some v11)
    (h12 : load S8 a12 = some v12) (h13 : load S8 a13 = some v13)
    (h14 : load S8 a14 = some v14) (h15 : load S8 a15 = some v15) :
    subCells [a0, a1, a2, a3, a4, a5, a6, a7, a8, a9, a10, a11, a12, a13, a14, a15]
      = some [v0, v1, v2, v3, v4, v5, v6, v7, v8, v9, v10, v11, v12, v13, v14, v15] := by
  simp only [subCells, forLoop, loopFrom, load, store, bind, Option.bind, Option.map,
    h0, h1, h2, h3, h4, h5, h6, h7, h8, h9, h10, h11, h12, h13, h14, h15]

theorem addConstants_eval (a0 a1 a2 a3 a4 a5 a6 a7 a8 a9 a10 a11 a12 a13 a14 a15 : Nat)
    (r rc : Nat) (h : load constants r = some rc) :
    addConstants [a0, a1, a2, a3, a4, a5, a6, a7, a8, a9, a10, a11, a12, a13, a14, a15] r
      = some [a0 ^^^ ((rc <<< 4) % 256) >>> 4, a1, a2, a3, a4 ^^^ rc >>> 4, a5, a6, a7,
          a8 ^^^ 0x02, a9, a10, a11, a12, a13, a14, a15] := by
  simp only [addConstants, h, load, store, bind, Option.bind, Option.map, pure]

theorem addRoundTweakey_eval (a0 a1 a2 a3 a4 a5 a6 a7 a8 a9 a10 a11 a12 a13 a14 a15 : Nat)
    (b0 b1 b2 b3 b4 b5 b6 b7 b8 b9 b10 b11 b12 b13 b14 b15 : Nat)
    (c0 c1 c2 c3 c4 c5 c6 c7 c8 c9 c10 c11 c12 c13 c14 c15 : Nat)
    (d0 d1 d2 d3 d4 d5 d6 d7 d8 d9 d10 d11 d12 d13 d14 d15 : Nat) :
    addRoundTweakey [a0, a1, a2, a3, a4, a5, a6, a7, a8, a9, a10, a11, a12, a13, a14, a15]
      [b0, b1, b2, b3, b4, b5, b6, b7, b8, b9, b10, b11, b12, b13, b14, b15]
      [c0, c1, c2, c3, c4, c5, c6, c7, c8, c9, c10, c11, c12, c13, c14, c15]
      [d0, d1, d2, d3, d4, d5, d6, d7, d8, d9, d10, d11, d12, d13, d14, d15]
    = some (
      [a0 ^^^ b0 ^^^ c0 ^^^ d0, a1 ^^^ b1 ^^^ c1 ^^^ d1, a2 ^^^ b2 ^^^ c2 ^^^ d2,
        a3 ^^^ b3 ^^^ c3 ^^^ d3, a4 ^^^ b4 ^^^ c4 ^^^ d4, a5 ^^^ b5 ^^^ c5 ^^^ d5,
        a6 ^^^ b6 ^^^ c6 ^^^ d6, a7 ^^^ b7 ^^^ c7 ^^^ d7,
        a8, a9, a10, a11, a12, a13, a14, a15],
      [b9, b15, b8, b13, b10, b14, b12, b11, b0, b1, b2, b3, b4, b5, b6, b7],
      [(c9 <<< 1) % 256 ||| ((c9 >>> 5 &&& 1) ^^^ (c9 >>> 7 &&& 1)),
        (c15 <<< 1) % 256 ||| ((c15 >>> 5 &&& 1) ^^^ (c15 >>> 7 &&& 1)),
        (c8 <<< 1) % 256 ||| ((c8 >>> 5 &&& 1) ^^^ (c8 >>> 7 &&& 1)),
        (c13 <<< 1) % 256 ||| ((c13 >>> 5 &&& 1) ^^^ (c13 >>> 7 &&& 1)),
        (c10 <<< 1) % 256 ||| ((c10 >>> 5 &&& 1) ^^^ (c10 >>> 7 &&& 1)),
        (c14 <<< 1) % 256 ||| ((c14 >>> 5 &&& 1) ^^^ (c14 >>> 7 &&& 1)),
        (c12 <<< 1) % 256 ||| ((c12 >>> 5 &&& 1) ^^^ (c12 >>> 7 &&& 1)),
        (c11 <<< 1) % 256 ||| ((c11 >>> 5 &&& 1) ^^^ (c11 >>> 7 &&& 1)),
        c0, c1, c2, c3, c4, c5, c6, c7],
      [d9 >>> 1 ||| ((d9 &&& 1) ^^^ (d9 >>> 6 &&& 1)) <<< 7,
        d15 >>> 1 ||| ((d15 &&& 1) ^^^ (d15 >>> 6 &&& 1)) <<< 7,
        d8 >>> 1 ||| ((d8 &&& 1) ^^^ (d8 >>> 6 &&& 1)) <<< 7,
        d13 >>> 1 ||| ((d13 &&& 1) ^^^ (d13 >>> 6 &&& 1)) <<< 7,
        d10 >>> 1 ||| ((d10 &&& 1) ^^^ (d10 >>> 6 &&& 1)) <<< 7,
        d14 >>> 1 ||| ((d14 &&& 1) ^^^ (d14 >>> 6 &&& 1)) <<< 7,
        d12 >>> 1 ||| ((d12 &&& 1) ^^^ (d12 >>> 6 &&& 1)) <<< 7,
        d11 >>> 1 ||| ((d11 &&& 1) ^^^ (d11 >>> 6 &&& 1)) <<< 7,
        d0, d1, d2, d3, d4, d5, d6, d7]) := by
  simp only [addRoundTweakey, xorTweakey_eval, List.replicate, memcpy16_eval, permuteLane_eval,
    lfsrTK2_eval, lfsrTK3_eval, bind, Option.bind, pure]

theorem S8_byte : ∀ x, x < 256 → ∃ v, load S8 x = some v ∧ v < 256 := by
  have h : ∀ x, x < 256 → (load S8 x).any (fun v => decide (v < 256)) = true := by decide!
  intro x hx
  have := h x hx
  cases hl : load S8 x with
  | none => simp [hl] at this
  | some v => exact ⟨v, rfl, by simpa [hl] using this⟩

theorem constants_six_bit : ∀ r, r < 62 → ∃ rc, load constants r = some rc ∧ rc < 64 := by
  have h : ∀ r, r < 62 → (load constants r).any (fun v => decide (v < 64)) = true := by decide!
  intro r hr
  have := h r hr
  cases hl : load constants r with
  | none => simp [hl] at this
  | some v => exact ⟨v, rfl, by simpa [hl] using this⟩

theorem lfsr2_eq_L2 (x : Nat) :
    (x <<< 1) % 256 ||| ((x >>> 5 &&& 1) ^^^ (x >>> 7 &&& 1)) = L2 x := by
  simp only [L2, bit, Nat.and_one_is_mod, Nat.shiftRight_eq_div_pow]

theorem lfsr3_eq_L3 (x : Nat) :
    x >>> 1 ||| ((x &&& 1) ^^^ (x >>> 6 &&& 1)) <<< 7 = L3 x := by
  simp only [L3, bit, Nat.and_one_is_mod, Nat.shiftRight_eq_div_pow, Nat.pow_zero, Nat.div_one]

/-- C4: after `addRoundTweakey`, cell `j` of the state is `IS[j] ^ TK1[j] ^ TK2[j] ^ TK3[j]`
for `j` in `0..7`, with the lanes as they were before the call advanced them, and cells
`8..15` are unchanged. -/
theorem addRoundTweakey_state_spec (IS TK1 TK2 TK3 : List Nat)
    (hIS : IS.length = 16) (h1 : TK1.length = 16) (h2 : TK2.length = 16)
    (h3 : TK3.length = 16) :
    ∃ IS' TK1' TK2' TK3', addRoundTweakey IS TK1 TK2 TK3 = some (IS', TK1', TK2', TK3') ∧
      IS'.length = 16 ∧
      (∀ j, j < 8 → cell IS' j = cell IS j ^^^ cell TK1 j ^^^ cell TK2 j ^^^ cell TK3 j) ∧
      (∀ j, 8 ≤ j → j < 16 → cell IS' j = cell IS j) := by
  obtain ⟨a0, a1, a2, a3, a4, a5, a6, a7, a8, a9, a10, a11, a12, a13, a14, a15, rfl⟩ :=
    length16_cases hIS
  obtain ⟨b0, b1, b2, b3, b4, b5, b6, b7, b8, b9, b10, b11, b12, b13, b14, b15, rfl⟩ :=
    length16_cases h1
  obtain ⟨c0, c1, c2, c3, c4, c5, c6, c7, c8, c9, c10, c11, c12, c13, c14, c15, rfl⟩ :=
    length16_cases h2
  obtain ⟨d0, d1, d2, d3, d4, d5, d6, d7, d8, d9, d10, d11, d12, d13, d14, d15, rfl⟩ :=
    length16_cases h3
  refine ⟨_, _, _, _, addRoundTweakey_eval _ _ _ _ _ _ _ _ _ _ _ _ _ _ _ _ _ _ _ _ _ _ _ _ _
    _ _ _ _ _ _ _ _ _ _ _ _ _ _ _ _ _ _ _ _ _ _ _ _ _ _ _ _ _ _ _ _ _ _ _ _ _ _ _, rfl, ?_, ?_⟩
  · intro j hj
    interval_cases j <;> rfl
  · intro j hj hj'
    interval_cases j <;> rfl

theorem addRoundTweakey_state_spec_witness :
    ∃ IS' TK1' TK2' TK3', addRoundTweakey katP (katK.take 16) ((katK.drop 16).take 16)
        ((katK.drop 32).take 16) = some (IS', TK1', TK2', TK3') ∧
      IS'.length = 16 ∧
      (∀ j, j < 8 → cell IS' j = cell katP j ^^^ cell (katK.take 16) j ^^^
        cell ((katK.drop 16).take 16) j ^^^ cell ((katK.drop 32).take 16) j) ∧
      (∀ j, 8 ≤ j → j < 16 → cell IS' j = cell katP j) :=
  addRoundTweakey_state_spec katP (katK.take 16) ((katK.drop 16).take 16)
    ((katK.drop 32).take 16) (by decide) (by decide) (by decide) (by decide)

/-- C5: after `addRoundTweakey` the new TK2 is `L2 (TK2[key_perm[i]])` at `i` in `0..7` and
`TK2[key_perm[i]]` at `i` in `8..15`, for the table `key_perm` of the source; it is the same
whatever the state, TK1 and TK3 are. -/
theorem addRoundTweakey_TK2_spec (IS TK1 TK2 TK3 ISb TK1b TK3b : List Nat)
    (hIS : IS.length = 16) (h1 : TK1.length = 16) (h2 : TK2.length = 16)
    (h3 : TK3.length = 16) (hISb : ISb.length = 16) (h1b : TK1b.length = 16)
    (h3b : TK3b.length = 16) :
    key_perm = [9, 15, 8, 13, 10, 14, 12, 11, 0, 1, 2, 3, 4, 5, 6, 7] ∧
    ∃ IS' TK1' TK2' TK3', addRoundTweakey IS TK1 TK2 TK3 = some (IS', TK1', TK2', TK3') ∧
      TK2'.length = 16 ∧
      (∀ i, i < 8 → cell TK2' i = L2 (cell TK2 (cell key_perm i))) ∧
      (∀ i, 8 ≤ i → i < 16 → cell TK2' i = cell TK2 (cell key_perm i)) ∧
      ∃ ISb' TK1b' TK3b',
        addRoundTweakey ISb TK1b TK2 TK3b = some (ISb', TK1b', TK2', TK3b') := by
  obtain ⟨a0, a1, a2, a3, a4, a5, a6, a7, a8, a9, a10, a11, a12, a13, a14, a15, rfl⟩ :=
    length16_cases hIS
  obtain ⟨b0, b1, b2, b3, b4, b5, b6, b7, b8, b9, b10, b11, b12, b13, b14, b15, rfl⟩ :=
    length16_cases h1
  obtain ⟨c0, c1, c2, c3, c4, c5, c6, c7, c8, c9, c10, c11, c12, c13, c14, c15, rfl⟩ :=
    length16_cases h2
  obtain ⟨d0, d1, d2, d3, d4, d5, d6, d7, d8, d9, d10, d11, d12, d13, d14, d15, rfl⟩ :=
    length16_cases h3
  obtain ⟨e0, e1, e2, e3, e4, e5, e6, e7, e8, e9, e10, e11, e12, e13, e14, e15, rfl⟩ :=
    length16_cases hISb
  obtain ⟨f0, f1, f2, f3, f4, f5, f6, f7, f8, f9, f10, f11, f12, f13, f14, f15, rfl⟩ :=
    length16_cases h1b
  obtain ⟨g0, g1, g2, g3, g4, g5, g6, g7, g8, g9, g10, g11, g12, g13, g14, g15, rfl⟩ :=
    length16_cases h3b
  refine ⟨rfl, _, _, _, _, addRoundTweakey_eval _ _ _ _ _ _ _ _ _ _ _ _ _ _ _ _ _ _ _ _ _ _
    _ _ _ _ _ _ _ _ _ _ _ _ _ _ _ _ _ _ _ _ _ _ _ _ _ _ _ _ _ _ _ _ _ _ _ _ _ _ _ _ _ _,
    rfl, ?_, ?_, _, _, _, addRoundTweakey_eval _ _ _ _ _ _ _ _ _ _ _ _ _ _ _ _ _ _ _ _ _ _
    _ _ _ _ _ _ _ _ _ _ _ _ _ _ _ _ _ _ _ _ _ _ _ _ _ _ _ _ _ _ _ _ _ _ _ _ _ _ _ _ _ _⟩
  · intro i hi
    interval_cases i <;> exact lfsr2_eq_L2 _
  · intro i hi hi'
    interval_cases i <;> rfl

theorem addRoundTweakey_TK2_spec_witness :
    key_perm = [9, 15, 8, 13, 10, 14, 12, 11, 0, 1, 2, 3, 4, 5, 6, 7] ∧
    ∃ IS' TK1' TK2' TK3', addRoundTweakey katP (katK.take 16) ((katK.drop 16).take 16)
        ((katK.drop 32).take 16) = some (IS', TK1', TK2', TK3') ∧
      TK2'.length = 16 ∧
      (∀ i, i < 8 → cell TK2' i = L2 (cell ((katK.drop 16).take 16) (cell key_perm i))) ∧
      (∀ i, 8 ≤ i → i < 16 → cell TK2' i = cell ((katK.drop 16).take 16) (cell key_perm i)) ∧
      ∃ ISb' TK1b' TK3b',
        addRoundTweakey katC katP ((katK.drop 16).take 16) katC
          = some (ISb', TK1b', TK2', TK3b') :=
  addRoundTweakey_TK2_spec katP (katK.take 16) ((katK.drop 16).take 16)
    ((katK.drop 32).take 16) katC katP katC
    (by decide) (by decide) (by decide) (by decide) (by decide) (by decide) (by decide)

/-- C6: after `addRoundTweakey` the new TK3 is `L3 (TK3[key_perm[i]])` at `i` in `0..7` and
`TK3[key_perm[i]]` at `i` in `8..15`; it is the same whatever the state, TK1 and TK2 are. -/
theorem addRoundTweakey_TK3_spec (IS TK1 TK2 TK3 ISb TK1b TK2b : List Nat)
    (hIS : IS.length = 16) (h1 : TK1.length = 16) (h2 : TK2.length = 16)
    (h3 : TK3.length = 16) (hISb : ISb.length = 16) (h1b : TK1b.length = 16)
    (h2b : TK2b.length = 16) :
    ∃ IS' TK1' TK2' TK3', addRoundTweakey IS TK1 TK2 TK3 = some (IS', TK1', TK2', TK3') ∧
      TK3'.length = 16 ∧
      (∀ i, i < 8 → cell TK3' i = L3 (cell TK3 (cell key_perm i))) ∧
      (∀ i, 8 ≤ i → i < 16 → cell TK3' i = cell TK3 (cell key_perm i)) ∧
      ∃ ISb' TK1b' TK2b',
        addRoundTweakey ISb TK1b TK2b TK3 = some (ISb', TK1b', TK2b', TK3') := by
  obtain ⟨a0, a1, a2, a3, a4, a5, a6, a7, a8, a9, a10, a11, a12, a13, a14, a15, rfl⟩ :=
    length16_cases hIS
  obtain ⟨b0, b1, b2, b3, b4, b5, b6, b7, b8, b9, b10, b11, b12, b13, b14, b15, rfl⟩ :=
    length16_cases h1
  obtain ⟨c0, c1, c2, c3, c4, c5, c6, c7, c8, c9, c10, c11, c12, c13, c14, c15, rfl⟩ :=
    length16_cases h2
  obtain ⟨d0, d1, d2, d3, d4, d5, d6, d7, d8, d9, d10, d11, d12, d13, d14, d15, rfl⟩ :=
    length16_cases h3
  obtain ⟨e0, e1, e2, e3, e4, e5, e6, e7, e8, e9, e10, e11, e12, e13, e14, e15, rfl⟩ :=
    length16_cases hISb
  obtain ⟨f0, f1, f2, f3, f4, f5, f6, f7, f8, f9, f10, f11, f12, f13, f14, f15, rfl⟩ :=
    length16_cases h1b
  obtain ⟨g0, g1, g2, g3, g4, g5, g6, g7, g8, g9, g10, g11, g12, g13, g14, g15, rfl⟩ :=
    length16_cases h2b
  refine ⟨_, _, _, _, addRoundTweakey_eval _ _ _ _ _ _ _ _ _ _ _ _ _ _ _ _ _ _ _ _ _ _
    _ _ _ _ _ _ _ _ _ _ _ _ _ _ _ _ _ _ _ _ _ _ _ _ _ _ _ _ _ _ _ _ _ _ _ _ _ _ _ _ _ _,
    rfl, ?_, ?_, _, _, _, addRoundTweakey_eval _ _ _ _ _ _ _ _ _ _ _ _ _ _ _ _ _ _ _ _ _ _
    _ _ _ _ _ _ _ _ _ _ _ _ _ _ _ _ _ _ _ _ _ _ _ _ _ _ _ _ _ _ _ _ _ _ _ _ _ _ _ _ _ _⟩
  · intro i hi
    interval_cases i <;> exact lfsr3_eq_L3 _
  · intro i hi hi'
    interval_cases i <;> rfl

theorem addRoundTweakey_TK3_spec_witness :
    ∃ IS' TK1' TK2' TK3', addRoundTweakey katP (katK.take 16) ((katK.drop 16).take 16)
        ((katK.drop 32).take 16) = some (IS', TK1', TK2', TK3') ∧
      TK3'.length = 16 ∧
      (∀ i, i < 8 → cell TK3' i = L3 (cell ((katK.drop 32).take 16) (cell key_perm i))) ∧
      (∀ i, 8 ≤ i → i < 16 → cell TK3' i = cell ((katK.drop 32).take 16) (cell key_perm i)) ∧
      ∃ ISb' TK1b' TK2b',
        addRoundTweakey katC katP katC ((katK.drop 32).take 16)
          = some (ISb', TK1b', TK2b', TK3') :=
  addRoundTweakey_TK3_spec katP (katK.take 16) ((katK.drop 16).take 16)
    ((katK.drop 32).take 16) katC katP katC
    (by decide) (by decide) (by decide) (by decide) (by decide) (by decide) (by decide)

theorem key_perm_perm : key_perm.Perm (List.range 16) := by decide

/-- C7: after `addRoundTweakey` the new TK1 is the permuted old one, `TK1'[i] =
TK1[key_perm[i]]` for every `i` in `0..15`, with no feedback update, so it holds the same
byte values with the same multiplicities. -/
theorem addRoundTweakey_TK1_spec (IS TK1 TK2 TK3 : List Nat)
    (hIS : IS.length = 16) (h1 : TK1.length = 16) (h2 : TK2.length = 16)
    (h3 : TK3.length = 16) :
    ∃ IS' TK1' TK2' TK3', addRoundTweakey IS TK1 TK2 TK3 = some (IS', TK1', TK2', TK3') ∧
      TK1'.length = 16 ∧
      (∀ i, i < 16 → cell TK1' i = cell TK1 (cell key_perm i)) ∧
      TK1'.Perm TK1 := by
  obtain ⟨a0, a1, a2, a3, a4, a5, a6, a7, a8, a9, a10, a11, a12, a13, a14, a15, rfl⟩ :=
    length16_cases hIS
  obtain ⟨b0, b1, b2, b3, b4, b5, b6, b7, b8, b9, b10, b11, b12, b13, b14, b15, rfl⟩ :=
    length16_cases h1
  obtain ⟨c0, c1, c2, c3, c4, c5, c6, c7, c8, c9, c10, c11, c12, c13, c14, c15, rfl⟩ :=
    length16_cases h2
  obtain ⟨d0, d1, d2, d3, d4, d5, d6, d7, d8, d9, d10, d11, d12, d13, d14, d15, rfl⟩ :=
    length16_cases h3
  refine ⟨_, _, _, _, addRoundTweakey_eval _ _ _ _ _ _ _ _ _ _ _ _ _ _ _ _ _ _ _ _ _ _
    _ _ _ _ _ _ _ _ _ _ _ _ _ _ _ _ _ _ _ _ _ _ _ _ _ _ _ _ _ _ _ _ _ _ _ _ _ _ _ _ _ _,
    rfl, ?_, ?_⟩
  · intro i hi
    interval_cases i <;> rfl
  · exact key_perm_perm.map
      (cell [b0, b1, b2, b3, b4, b5, b6, b7, b8, b9, b10, b11, b12, b13, b14, b15])

theorem addRoundTweakey_TK1_spec_witness :
    ∃ IS' TK1' TK2' TK3', addRoundTweakey katP (katK.take 16) ((katK.drop 16).take 16)
        ((katK.drop 32).take 16) = some (IS', TK1', TK2', TK3') ∧
      TK1'.length = 16 ∧
      (∀ i, i < 16 → cell TK1' i = cell (katK.take 16) (cell key_perm i)) ∧
      TK1'.Perm (katK.take 16) :=
  addRoundTweakey_TK1_spec katP (katK.take 16) ((katK.drop 16).take 16)
    ((katK.drop 32).take 16) (by decide) (by decide) (by decide) (by decide)

theorem low_nibble (rc : Nat) : ((rc <<< 4) % 256) >>> 4 = rc &&& 0x0F := by
  have h : rc &&& 0x0F = rc % 2 ^ 4 := Nat.and_pow_two_sub_one_eq_mod rc 4
  rw [h, Nat.shiftLeft_eq, Nat.shiftRight_eq_div_pow]
  omega

/-- C8: for a round index `r < 56` with `rc = constants[r]`, `addConstants` XORs
`rc & 0x0F` into cell 0, `rc >> 4` into cell 4 and `0x02` into cell 8 and leaves the other
13 cells unchanged; the 8-bit computation `(unsigned char)(rc << 4) >> 4` is `rc & 0x0F`. -/
theorem addConstants_spec (IS : List Nat) (r : Nat) (hIS : IS.length = 16) (hr : r < 56) :
    ∃ rc IS', load constants r = some rc ∧ addConstants IS r = some IS' ∧
      IS'.length = 16 ∧
      cell IS' 0 = cell IS 0 ^^^ (rc &&& 0x0F) ∧
      cell IS' 4 = cell IS 4 ^^^ (rc >>> 4) ∧
      cell IS' 8 = cell IS 8 ^^^ 0x02 ∧
      (∀ j, j < 16 → j ≠ 0 → j ≠ 4 → j ≠ 8 → cell IS' j = cell IS j) ∧
      ((rc <<< 4) % 256) >>> 4 = rc &&& 0x0F := by
  obtain ⟨a0, a1, a2, a3, a4, a5, a6, a7, a8, a9, a10, a11, a12, a13, a14, a15, rfl⟩ :=
    length16_cases hIS
  obtain ⟨rc, hrc, -⟩ := constants_six_bit r (by omega)
  refine ⟨rc, _, hrc, addConstants_eval _ _ _ _ _ _ _ _ _ _ _ _ _ _ _ _ r rc hrc, rfl, ?_,
    rfl, rfl, ?_, low_nibble rc⟩
  · show a0 ^^^ ((rc <<< 4) % 256) >>> 4 = a0 ^^^ (rc &&& 0x0F)
    rw [low_nibble]
  · intro j hj j0 j4 j8
    interval_cases j <;> first | rfl | contradiction

theorem addConstants_spec_witness :
    ∃ rc IS', load constants 55 = some rc ∧ addConstants katP 55 = some IS' ∧
      IS'.length = 16 ∧
      cell IS' 0 = cell katP 0 ^^^ (rc &&& 0x0F) ∧
      cell IS' 4 = cell katP 4 ^^^ (rc >>> 4) ∧
      cell IS' 8 = cell katP 8 ^^^ 0x02 ∧
      (∀ j, j < 16 → j ≠ 0 → j ≠ 4 → j ≠ 8 → cell IS' j = cell katP j) ∧
      ((rc <<< 4) % 256) >>> 4 = rc &&& 0x0F :=
  addConstants_spec katP 55 (by decide) (by decide)

theorem S8_length : S8.length = 256 := by decide!

/-- C9: for a 16-byte state, cell `i` after `subCells` is `S8[IS[i]]` for every `i` in
`0..15`, `S8` being the 256-entry table; an output cell depends only on the input cell at
the same position. -/
theorem subCells_spec (IS IS2 : List Nat) (h : IsBytes 16 IS) (h2 : IsBytes 16 IS2) :
    S8.length = 256 ∧
    ∃ IS' IS2', subCells IS = some IS' ∧ subCells IS2 = some IS2' ∧
      IS'.length = 16 ∧
      (∀ i, i < 16 → load S8 (cell IS i) = some (cell IS' i)) ∧
      (∀ i, i < 16 → cell IS i = cell IS2 i → cell IS' i = cell IS2' i) := by
  obtain ⟨a0, a1, a2, a3, a4, a5, a6, a7, a8, a9, a10, a11, a12, a13, a14, a15, rfl⟩ :=
    length16_cases h.1
  obtain ⟨b0, b1, b2, b3, b4, b5, b6, b7, b8, b9, b10, b11, b12, b13, b14, b15, rfl⟩ :=
    length16_cases h2.1
  obtain ⟨ha0, ha1, ha2, ha3, ha4, ha5, ha6, ha7, ha8, ha9, ha10, ha11, ha12, ha13, ha14,
    ha15⟩ := (isBytes16_iff _ _ _ _ _ _ _ _ _ _ _ _ _ _ _ _).1 h
  obtain ⟨hb0, hb1, hb2, hb3, hb4, hb5, hb6, hb7, hb8, hb9, hb10, hb11, hb12, hb13, hb14,
    hb15⟩ := (isBytes16_iff _ _ _ _ _ _ _ _ _ _ _ _ _ _ _ _).1 h2
  obtain ⟨v0, e0, -⟩ := S8_byte a0 ha0
  obtain ⟨v1, e1, -⟩ := S8_byte a1 ha1
  obtain ⟨v2, e2, -⟩ := S8_byte a2 ha2
  obtain ⟨v3, e3, -⟩ := S8_byte a3 ha3
  obtain ⟨v4, e4, -⟩ := S8_byte a4 ha4
  obtain ⟨v5, e5, -⟩ := S8_byte a5 ha5
  obtain ⟨v6, e6, -⟩ := S8_byte a6 ha6
  obtain ⟨v7, e7, -⟩ := S8_byte a7 ha7
  obtain ⟨v8, e8, -⟩ := S8_byte a8 ha8
  obtain ⟨v9, e9, -⟩ := S8_byte a9 ha9
  obtain ⟨v10, e10, -⟩ := S8_byte a10 ha10
  obtain ⟨v11, e11, -⟩ := S8_byte a11 ha11
  obtain ⟨v12, e12, -⟩ := S8_byte a12 ha12
  obtain ⟨v13, e13, -⟩ := S8_byte a13 ha13
  obtain ⟨v14, e14, -⟩ := S8_byte a14 ha14
  obtain ⟨v15, e15, -⟩ := S8_byte a15 ha15
  obtain ⟨w0, f0, -⟩ := S8_byte b0 hb0
  obtain ⟨w1, f1, -⟩ := S8_byte b1 hb1
  obtain ⟨w2, f2, -⟩ := S8_byte b2 hb2
  obtain ⟨w3, f3, -⟩ := S8_byte b3 hb3
  obtain ⟨w4, f4, -⟩ := S8_byte b4 hb4
  obtain ⟨w5, f5, -⟩ := S8_byte b5 hb5
  obtain ⟨w6, f6, -⟩ := S8_byte b6 hb6
  obtain ⟨w7, f7, -⟩ := S8_byte b7 hb7
  obtain ⟨w8, f8, -⟩ := S8_byte b8 hb8
  obtain ⟨w9, f9, -⟩ := S8_byte b9 hb9
  obtain ⟨w10, f10, -⟩ := S8_byte b10 hb10
  obtain ⟨w11, f11, -⟩ := S8_byte b11 hb11
  obtain ⟨w12, f12, -⟩ := S8_byte b12 hb12
  obtain ⟨w13, f13, -⟩ := S8_byte b13 hb13
  obtain ⟨w14, f14, -⟩ := S8_byte b14 hb14
  obtain ⟨w15, f15, -⟩ := S8_byte b15 hb15
  refine ⟨S8_length, _, _,
    subCells_eval _ _ _ _ _ _ _ _ _ _ _ _ _ _ _ _ _ _ _ _ _ _ _ _ _ _ _ _ _ _ _ _
      e0 e1 e2 e3 e4 e5 e6 e7 e8 e9 e10 e11 e12 e13 e14 e15,
    subCells_eval _ _ _ _ _ _ _ _ _ _ _ _ _ _ _ _ _ _ _ _ _ _ _ _ _ _ _ _ _ _ _ _
      f0 f1 f2 f3 f4 f5 f6 f7 f8 f9 f10 f11 f12 f13 f14 f15, rfl, ?_, ?_⟩
  · intro i hi
    interval_cases i <;> assumption
  · intro i hi hab
    interval_cases i <;>
      · simp only [cell, load, Option.getD_some] at hab ⊢
        subst hab
        simp_all

theorem subCells_spec_witness :
    S8.length = 256 ∧
    ∃ IS' IS2', subCells katP = some IS' ∧ subCells katC = some IS2' ∧
      IS'.length = 16 ∧
      (∀ i, i < 16 → load S8 (cell katP i) = some (cell IS' i)) ∧
      (∀ i, i < 16 → cell katP i = cell katC i → cell IS' i = cell IS2' i) :=
  subCells_spec katP katC (by decide) (by decide)

/-- C10: `shiftRows` yields `new[i] = IS[P[i]]` for `P = [0,1,2,3, 7,4,5,6, 10,11,8,9,
13,14,15,12]`; equivalently row `q` of the row-major 4x4 state is rotated right by `q`
cells: `new[4q + ((c + q) mod 4)] = IS[4q + c]`. -/
theorem shiftRows_spec (IS : List Nat) (hIS : IS.length = 16) :
    ∃ new, shiftRows IS = some new ∧ new.length = 16 ∧
      (∀ i, i < 16 →
        cell new i = cell IS (cell [0, 1, 2, 3, 7, 4, 5, 6, 10, 11, 8, 9, 13, 14, 15, 12] i)) ∧
      (∀ q c, q < 4 → c < 4 → cell new (4 * q + (c + q) % 4) = cell IS (4 * q + c)) := by
  obtain ⟨a0, a1, a2, a3, a4, a5, a6, a7, a8, a9, a10, a11, a12, a13, a14, a15, rfl⟩ :=
    length16_cases hIS
  refine ⟨_, shiftRows_eval _ _ _ _ _ _ _ _ _ _ _ _ _ _ _ _, rfl, ?_, ?_⟩
  · intro i hi
    interval_cases i <;> rfl
  · intro q c hq hc
    interval_cases q <;> interval_cases c <;> rfl

theorem shiftRows_spec_witness :
    ∃ new, shiftRows katP = some new ∧ new.length = 16 ∧
      (∀ i, i < 16 →
        cell new i = cell katP (cell [0, 1, 2, 3, 7, 4, 5, 6, 10, 11, 8, 9, 13, 14, 15, 12] i)) ∧
      (∀ q c, q < 4 → c < 4 → cell new (4 * q + (c + q) % 4) = cell katP (4 * q + c)) :=
  shiftRows_spec katP (by decide)

/-! ## Every step maps 16-byte buffers to 16-byte buffers -/

theorem xor_byte {a b : Nat} (ha : a < 256) (hb : b < 256) : a ^^^ b < 256 :=
  Nat.xor_lt_two_pow (n := 8) ha hb

theorem or_byte {a b : Nat} (ha : a < 256) (hb : b < 256) : a ||| b < 256 :=
  Nat.or_lt_two_pow (n := 8) ha hb

theorem bit_lt (k x : Nat) : bit k x < 2 := Nat.mod_lt _ (by decide)

theorem L2_byte (x : Nat) : L2 x < 256 := by
  have h5 := bit_lt 5 x
  have h7 := bit_lt 7 x
  have hx : bit 5 x ^^^ bit 7 x < 2 := Nat.xor_lt_two_pow (n := 1) h5 h7
  exact or_byte (Nat.mod_lt _ (by decide)) (by omega)

theorem L3_byte {x : Nat} (h : x < 256) : L3 x < 256 := by
  have h0 := bit_lt 0 x
  have h6 := bit_lt 6 x
  have hx : bit 0 x ^^^ bit 6 x < 2 := Nat.xor_lt_two_pow (n := 1) h0 h6
  refine or_byte ?_ ?_
  · rw [Nat.shiftRight_eq_div_pow]; omega
  · rw [Nat.shiftLeft_eq]; omega

theorem subCells_bytes {IS : List Nat} (h : IsBytes 16 IS) :
    ∃ IS', subCells IS = some IS' ∧ IsBytes 16 IS' := by
  obtain ⟨a0, a1, a2, a3, a4, a5, a6, a7, a8, a9, a10, a11, a12, a13, a14, a15, rfl⟩ :=
    length16_cases h.1
  obtain ⟨ha0, ha1, ha2, ha3, ha4, ha5, ha6, ha7, ha8, ha9, ha10, ha11, ha12, ha13, ha14,
    ha15⟩ := (isBytes16_iff _ _ _ _ _ _ _ _ _ _ _ _ _ _ _ _).1 h
  obtain ⟨v0, e0, g0⟩ := S8_byte a0 ha0
  obtain ⟨v1, e1, g1⟩ := S8_byte a1 ha1
  obtain ⟨v2, e2, g2⟩ := S8_byte a2 ha2
  obtain ⟨v3, e3, g3⟩ := S8_byte a3 ha3
  obtain ⟨v4, e4, g4⟩ := S8_byte a4 ha4
  obtain ⟨v5, e5, g5⟩ := S8_byte a5 ha5
  obtain ⟨v6, e6, g6⟩ := S8_byte a6 ha6
  obtain ⟨v7, e7, g7⟩ := S8_byte a7 ha7
  obtain ⟨v8, e8, g8⟩ := S8_byte a8 ha8
  obtain ⟨v9, e9, g9⟩ := S8_byte a9 ha9
  obtain ⟨v10, e10, g10⟩ := S8_byte a10 ha10
  obtain ⟨v11, e11, g11⟩ := S8_byte a11 ha11
  obtain ⟨v12, e12, g12⟩ := S8_byte a12 ha12
  obtain ⟨v13, e13, g13⟩ := S8_byte a13 ha13
  obtain ⟨v14, e14, g14⟩ := S8_byte a14 ha14
  obtain ⟨v15, e15, g15⟩ := S8_byte a15 ha15
  exact ⟨_, subCells_eval _ _ _ _ _ _ _ _ _ _ _ _ _ _ _ _ _ _ _ _ _ _ _ _ _ _ _ _ _ _ _ _
      e0 e1 e2 e3 e4 e5 e6 e7 e8 e9 e10 e11 e12 e13 e14 e15,
    (isBytes16_iff _ _ _ _ _ _ _ _ _ _ _ _ _ _ _ _).2
      ⟨g0, g1, g2, g3, g4, g5, g6, g7, g8, g9, g10, g11, g12, g13, g14, g15⟩⟩

theorem addConstants_bytes {IS : List Nat} {r : Nat} (hr : r < 62) (h : IsBytes 16 IS) :
    ∃ IS', addConstants IS r = some IS' ∧ IsBytes 16 IS' := by
  obtain ⟨a0, a1, a2, a3, a4, a5, a6, a7, a8, a9, a10, a11, a12, a13, a14, a15, rfl⟩ :=
    length16_cases h.1
  obtain ⟨ha0, ha1, ha2, ha3, ha4, ha5, ha6, ha7, ha8, ha9, ha10, ha11, ha12, ha13, ha14,
    ha15⟩ := (isBytes16_iff _ _ _ _ _ _ _ _ _ _ _ _ _ _ _ _).1 h
  obtain ⟨rc, hrc, hlt⟩ := constants_six_bit r hr
  have hc0 : ((rc <<< 4) % 256) >>> 4 < 256 := by
    rw [Nat.shiftLeft_eq, Nat.shiftRight_eq_div_pow]; omega
  have hc1 : rc >>> 4 < 256 := by
    rw [Nat.shiftRight_eq_div_pow]; omega
  exact ⟨_, addConstants_eval _ _ _ _ _ _ _ _ _ _ _ _ _ _ _ _ r rc hrc,
    (isBytes16_iff _ _ _ _ _ _ _ _ _ _ _ _ _ _ _ _).2
      ⟨xor_byte ha0 hc0, ha1, ha2, ha3, xor_byte ha4 hc1, ha5, ha6, ha7,
        xor_byte ha8 (by decide), ha9, ha10, ha11, ha12, ha13, ha14, ha15⟩⟩

theorem addRoundTweakey_bytes {IS TK1 TK2 TK3 : List Nat} (h : IsBytes 16 IS)
    (h1 : IsBytes 16 TK1) (h2 : IsBytes 16 TK2) (h3 : IsBytes 16 TK3) :
    ∃ IS' TK1' TK2' TK3', addRoundTweakey IS TK1 TK2 TK3 = some (IS', TK1', TK2', TK3') ∧
      IsBytes 16 IS' ∧ IsBytes 16 TK1' ∧ IsBytes 16 TK2' ∧ IsBytes 16 TK3' := by
  obtain ⟨a0, a1, a2, a3, a4, a5, a6, a7, a8, a9, a10, a11, a12, a13, a14, a15, rfl⟩ :=
    length16_cases h.1
  obtain ⟨b0, b1, b2, b3, b4, b5, b6, b7, b8, b9, b10, b11, b12, b13, b14, b15, rfl⟩ :=
    length16_cases h1.1
  obtain ⟨c0, c1, c2, c3, c4, c5, c6, c7, c8, c9, c10, c11, c12, c13, c14, c15, rfl⟩ :=
    length16_cases h2.1
  obtain ⟨d0, d1, d2, d3, d4, d5, d6, d7, d8, d9, d10, d11, d12, d13, d14, d15, rfl⟩ :=
    length16_cases h3.1
  obtain ⟨ha0, ha1, ha2, ha3, ha4, ha5, ha6, ha7, ha8, ha9, ha10, ha11, ha12, ha13, ha14,
    ha15⟩ := (isBytes16_iff _ _ _ _ _ _ _ _ _ _ _ _ _ _ _ _).1 h
  obtain ⟨hb0, hb1, hb2, hb3, hb4, hb5, hb6, hb7, hb8, hb9, hb10, hb11, hb12, hb13, hb14,
    hb15⟩ := (isBytes16_iff _ _ _ _ _ _ _ _ _ _ _ _ _ _ _ _).1 h1
  obtain ⟨hc0, hc1, hc2, hc3, hc4, hc5, hc6, hc7, hc8, hc9, hc10, hc11, hc12, hc13, hc14,
    hc15⟩ := (isBytes16_iff _ _ _ _ _ _ _ _ _ _ _ _ _ _ _ _).1 h2
  obtain ⟨hd0, hd1, hd2, hd3, hd4, hd5, hd6, hd7, hd8, hd9, hd10, hd11, hd12, hd13, hd14,
    hd15⟩ := (isBytes16_iff _ _ _ _ _ _ _ _ _ _ _ _ _ _ _ _).1 h3
  refine ⟨_, _, _, _, addRoundTweakey_eval _ _ _ _ _ _ _ _ _ _ _ _ _ _ _ _ _ _ _ _ _ _
    _ _ _ _ _ _ _ _ _ _ _ _ _ _ _ _ _ _ _ _ _ _ _ _ _ _ _ _ _ _ _ _ _ _ _ _ _ _ _ _ _ _,
    ?_, ?_, ?_, ?_⟩
  · exact (isBytes16_iff _ _ _ _ _ _ _ _ _ _ _ _ _ _ _ _).2
      ⟨xor_byte (xor_byte (xor_byte ha0 hb0) hc0) hd0,
        xor_byte (xor_byte (xor_byte ha1 hb1) hc1) hd1,
        xor_byte (xor_byte (xor_byte ha2 hb2) hc2) hd2,
        xor_byte (xor_byte (xor_byte ha3 hb3) hc3) hd3,
        xor_byte (xor_byte (xor_byte ha4 hb4) hc4) hd4,
        xor_byte (xor_byte (xor_byte ha5 hb5) hc5) hd5,
        xor_byte (xor_byte (xor_byte ha6 hb6) hc6) hd6,
        xor_byte (xor_byte (xor_byte ha7 hb7) hc7) hd7,
        ha8, ha9, ha10, ha11, ha12, ha13, ha14, ha15⟩
  · exact (isBytes16_iff _ _ _ _ _ _ _ _ _ _ _ _ _ _ _ _).2
      ⟨hb9, hb15, hb8, hb13, hb10, hb14, hb12, hb11, hb0, hb1, hb2, hb3, hb4, hb5, hb6, hb7⟩
  · simp only [lfsr2_eq_L2]
    exact (isBytes16_iff _ _ _ _ _ _ _ _ _ _ _ _ _ _ _ _).2
      ⟨L2_byte _, L2_byte _, L2_byte _, L2_byte _, L2_byte _, L2_byte _, L2_byte _, L2_byte _,
        hc0, hc1, hc2, hc3, hc4, hc5, hc6, hc7⟩
  · simp only [lfsr3_eq_L3]
    exact (isBytes16_iff _ _ _ _ _ _ _ _ _ _ _ _ _ _ _ _).2
      ⟨L3_byte hd9, L3_byte hd15, L3_byte hd8, L3_byte hd13, L3_byte hd10, L3_byte hd14,
        L3_byte hd12, L3_byte hd11, hd0, hd1, hd2, hd3, hd4, hd5, hd6, hd7⟩

theorem shiftRows_bytes {IS : List Nat} (h : IsBytes 16 IS) :
    ∃ IS', shiftRows IS = some IS' ∧ IsBytes 16 IS' := by
  obtain ⟨a0, a1, a2, a3, a4, a5, a6, a7, a8, a9, a10, a11, a12, a13, a14, a15, rfl⟩ :=
    length16_cases h.1
  obtain ⟨ha0, ha1, ha2, ha3, ha4, ha5, ha6, ha7, ha8, ha9, ha10, ha11, ha12, ha13, ha14,
    ha15⟩ := (isBytes16_iff _ _ _ _ _ _ _ _ _ _ _ _ _ _ _ _).1 h
  exact ⟨_, shiftRows_eval _ _ _ _ _ _ _ _ _ _ _ _ _ _ _ _,
    (isBytes16_iff _ _ _ _ _ _ _ _ _ _ _ _ _ _ _ _).2
      ⟨ha0, ha1, ha2, ha3, ha7, ha4, ha5, ha6, ha10, ha11, ha8, ha9, ha13, ha14, ha15, ha12⟩⟩

theorem mixColumns_bytes {IS : List Nat} (h : IsBytes 16 IS) :
    ∃ IS', mixColumns IS = some IS' ∧ IsBytes 16 IS' := by
  obtain ⟨a0, a1, a2, a3, a4, a5, a6, a7, a8, a9, a10, a11, a12, a13, a14, a15, rfl⟩ :=
    length16_cases h.1
  obtain ⟨ha0, ha1, ha2, ha3, ha4, ha5, ha6, ha7, ha8, ha9, ha10, ha11, ha12, ha13, ha14,
    ha15⟩ := (isBytes16_iff _ _ _ _ _ _ _ _ _ _ _ _ _ _ _ _).1 h
  have z : (0 : Nat) < 256 := by decide
  exact ⟨_, mixColumns_eval _ _ _ _ _ _ _ _ _ _ _ _ _ _ _ _,
    (isBytes16_iff _ _ _ _ _ _ _ _ _ _ _ _ _ _ _ _).2
      ⟨xor_byte (xor_byte (xor_byte z ha0) ha8) ha12,
        xor_byte (xor_byte (xor_byte z ha1) ha9) ha13,
        xor_byte (xor_byte (xor_byte z ha2) ha10) ha14,
        xor_byte (xor_byte (xor_byte z ha3) ha11) ha15,
        xor_byte z ha0, xor_byte z ha1, xor_byte z ha2, xor_byte z ha3,
        xor_byte (xor_byte z ha4) ha8, xor_byte (xor_byte z ha5) ha9,
        xor_byte (xor_byte z ha6) ha10, xor_byte (xor_byte z ha7) ha11,
        xor_byte (xor_byte z ha0) ha8, xor_byte (xor_byte z ha1) ha9,
        xor_byte (xor_byte z ha2) ha10, xor_byte (xor_byte z ha3) ha11⟩⟩

/-! ## The round loop -/

theorem cipherRound_total {r : Nat} {st : List Nat × List Nat × List Nat × List Nat}
    (hr : r < 62) (h : LanesOk (mkLocals r st)) :
    ∃ st', cipherRound r st = some st' ∧ LanesOk (mkLocals (r + 1) st') := by
  obtain ⟨h0, h1, h2, h3⟩ := h
  obtain ⟨x1, e1, b1⟩ := subCells_bytes h0
  obtain ⟨x2, e2, b2⟩ := addConstants_bytes hr b1
  obtain ⟨x3, t1, t2, t3, e3, b3, c1, c2, c3⟩ := addRoundTweakey_bytes b2 h1 h2 h3
  obtain ⟨x4, e4, b4⟩ := shiftRows_bytes b3
  obtain ⟨x5, e5, b5⟩ := mixColumns_bytes b4
  refine ⟨(x5, t1, t2, t3), ?_, b5, c1, c2, c3⟩
  have e1' : subCells st.1 = some x1 := e1
  have e3' : addRoundTweakey x2 st.2.1 st.2.2.1 st.2.2.2 = some (x3, t1, t2, t3) := e3
  simp only [cipherRound, e1', e2, e3', e4, e5, Option.bind]

theorem roundBody_eq (r : Nat) (st : List Nat × List Nat × List Nat × List Nat) :
    roundBody (mkLocals r st) = (cipherRound r st).map (mkLocals (r + 1)) := by
  simp only [roundBody, cipherRound, mkLocals, bind, pure]
  cases subCells st.1 with
  | none => rfl
  | some x1 =>
    simp only [Option.bind]
    cases addConstants x1 r with
    | none => rfl
    | some x2 =>
      simp only [Option.bind]
      cases addRoundTweakey x2 st.2.1 st.2.2.1 st.2.2.2 with
      | none => rfl
      | some q =>
        obtain ⟨x3, t1, t2, t3⟩ := q
        simp only [Option.bind]
        cases shiftRows x3 with
        | none => rfl
        | some x4 =>
          simp only [Option.bind]
          cases mixColumns x4 with
          | none => rfl
          | some x5 => rfl

theorem whileLoop_eq_fold (n : Nat) :
    ∀ (fuel r : Nat) (st : List Nat × List Nat × List Nat × List Nat),
      r + n = 56 → n < fuel →
      whileLoop (fun s => decide (s.round < 56)) roundBody fuel (mkLocals r st)
        = ((List.range' r n).foldlM (fun st r => cipherRound r st) st).map (mkLocals 56) := by
  induction n with
  | zero =>
    intro fuel r st hr hf
    obtain ⟨f, rfl⟩ : ∃ f, fuel = f + 1 := ⟨fuel - 1, by omega⟩
    have : r = 56 := by omega
    subst this
    simp [whileLoop, mkLocals]
  | succ n ih =>
    intro fuel r st hr hf
    obtain ⟨f, rfl⟩ : ∃ f, fuel = f + 1 := ⟨fuel - 1, by omega⟩
    have hlt : r < 56 := by omega
    have hc : decide ((mkLocals r st).round < 56) = true := by simpa [mkLocals] using hlt
    rw [whileLoop, if_pos hc, roundBody_eq, List.range'_succ, List.foldlM_cons]
    cases hcr : cipherRound r st with
    | none => rfl
    | some st' =>
      simp only [Option.map_some', Option.bind, bind]
      exact ih f (r + 1) st' (by omega) (by omega)

theorem fold_total (n : Nat) :
    ∀ (r : Nat) (st : List Nat × List Nat × List Nat × List Nat),
      r + n = 56 → LanesOk (mkLocals r st) →
      ∃ st', (List.range' r n).foldlM (fun st r => cipherRound r st) st = some st' ∧
        LanesOk (mkLocals 56 st') := by
  induction n with
  | zero =>
    intro r st hr h
    exact ⟨st, rfl, h⟩
  | succ n ih =>
    intro r st hr h
    obtain ⟨st1, e1, h1⟩ := cipherRound_total (r := r) (by omega) h
    obtain ⟨st2, e2, h2⟩ := ih (r + 1) st1 (by omega) h1
    refine ⟨st2, ?_, h2⟩
    rw [List.range'_succ, List.foldlM_cons, e1]
    exact e2

theorem memcpy_slice {dst src : List Nat} {off n : Nat} (hs : off + n ≤ src.length)
    (hd : dst.length = n) : memcpy dst src off n = some ((src.drop off).take n) := by
  have hdrop : dst.drop n = [] := List.drop_eq_nil_of_le (by omega)
  simp [memcpy, hs, hd, hdrop]

theorem isBytes_slice {k : List Nat} {m : Nat} (hk : IsBytes m k) (off n : Nat)
    (h : off + n ≤ m) : IsBytes n ((k.drop off).take n) := by
  refine ⟨?_, fun x hx => hk.2 x (List.mem_of_mem_drop (List.mem_of_mem_take hx))⟩
  rw [List.length_take, List.length_drop, hk.1]
  omega

/-- With enough fuel, on a 16-byte plaintext and a 48-byte tweakey, `skinny` returns the
16-byte state that the 56 rounds of the specification produce. -/
theorem skinny_run {fuel : Nat} {p k : List Nat} (hf : 57 ≤ fuel) (hp : IsBytes 16 p)
    (hk : IsBytes 48 k) :
    ∃ c, skinny fuel p k = some c ∧ skinnySpec p k = some c ∧ IsBytes 16 c := by
  have ep : memcpy (List.replicate 16 0) p 0 16 = some p := by
    rw [memcpy_slice (by have := hp.1; omega) (by simp), List.drop_zero, List.take_of_length_le]
    rw [hp.1]
  have e1 : memcpy (List.replicate 16 0) k 0 16 = some (k.take 16) := by
    rw [memcpy_slice (by have := hk.1; omega) (by simp), List.drop_zero]
  have e2 : memcpy (List.replicate 16 0) k 16 16 = some ((k.drop 16).take 16) :=
    memcpy_slice (by have := hk.1; omega) (by simp)
  have e3 : memcpy (List.replicate 16 0) k 32 16 = some ((k.drop 32).take 16) :=
    memcpy_slice (by have := hk.1; omega) (by simp)
  have b1 : IsBytes 16 (k.take 16) := by
    have := isBytes_slice hk 0 16 (by decide)
    rwa [List.drop_zero] at this
  have b2 : IsBytes 16 ((k.drop 16).take 16) := isBytes_slice hk 16 16 (by decide)
  have b3 : IsBytes 16 ((k.drop 32).take 16) := isBytes_slice hk 32 16 (by decide)
  obtain ⟨st', efold, hok⟩ := fold_total 56 0
    (p, k.take 16, (k.drop 16).take 16, (k.drop 32).take 16) rfl ⟨hp, b1, b2, b3⟩
  have eloop := whileLoop_eq_fold 56 fuel 0
    (p, k.take 16, (k.drop 16).take 16, (k.drop 32).take 16) rfl (by omega)
  rw [efold] at eloop
  have hlen : st'.1.length = 16 := hok.1.1
  have ec : memcpy (List.replicate 16 0) st'.1 0 16 = some st'.1 := by
    rw [memcpy_slice (by omega) (by simp), List.drop_zero, List.take_of_length_le]
    rw [hlen]
  refine ⟨st'.1, ?_, ?_, hok.1⟩
  · have eloop' : whileLoop (fun s => decide (s.round < 56)) roundBody fuel
        { round := 0, IS := p, TK1 := k.take 16, TK2 := (k.drop 16).take 16,
          TK3 := (k.drop 32).take 16 } = some (mkLocals 56 st') := eloop
    simp only [skinny, ep, e1, e2, e3, eloop', bind, Option.bind]
    exact ec
  · rw [skinnySpec, List.range_eq_range', efold]
    rfl

/-! ## The driver -/

theorem skinny_kat_57 : skinny 57 katP katK = some katC := by decide!

/-- C1: `skinny` reproduces the SKINNY-128-384 known-answer vector: with enough fuel for the
round loop, the tweakey `katK` and the plaintext `katP` give the ciphertext `katC`. -/
theorem skinny_kat (fuel : Nat) (hf : 57 ≤ fuel) : skinny fuel katP katK = some katC := by
  obtain ⟨c, e, s, -⟩ := skinny_run hf (p := katP) (k := katK) (by decide) (by decide)
  obtain ⟨c', e', s', -⟩ :=
    skinny_run (Nat.le_refl 57) (p := katP) (k := katK) (by decide) (by decide)
  rw [skinny_kat_57] at e'
  rw [s] at s'
  rw [e, s', e']

theorem skinny_kat_witness : 57 ≤ 64 ∧ skinny 64 katP katK = some katC :=
  ⟨by decide, skinny_kat 64 (by decide)⟩

/-- C2: for a 16-byte plaintext and a 48-byte tweakey, the output of `skinny` is the state
obtained from `State = p`, `TK1 = k[0..16)`, `TK2 = k[16..32)`, `TK3 = k[32..48)` by the
rounds `r = 0, 1, ..., 55`, in that order, each being subCells, addConstants with
`constants[r]`, addRoundTweakey, shiftRows, mixColumns; more fuel adds no round. -/
theorem skinny_eq_spec (fuel : Nat) (p k : List Nat) (hf : 57 ≤ fuel) (hp : IsBytes 16 p)
    (hk : IsBytes 48 k) :
    ∃ c, skinny fuel p k = some c ∧ skinnySpec p k = some c := by
  obtain ⟨c, e, s, -⟩ := skinny_run hf hp hk
  exact ⟨c, e, s⟩

theorem skinny_eq_spec_witness :
    ∃ c, skinny 57 katC katK = some c ∧ skinnySpec katC katK = some c :=
  skinny_eq_spec 57 katC katK (by decide) (by decide) (by decide)

/-- C3: `skinny` is total: on every 16-byte plaintext and 48-byte tweakey, with all array
accesses checked, it produces a 16-byte ciphertext; the table `constants` has 62 entries and
is read at `round < 56`, `S8` is defined at every byte, and `key_perm` holds indices below
16. -/
theorem skinny_total (fuel : Nat) (p k : List Nat) (hf : 57 ≤ fuel) (hp : IsBytes 16 p)
    (hk : IsBytes 48 k) :
    (∃ c, skinny fuel p k = some c ∧ IsBytes 16 c) ∧
    constants.length = 62 ∧
    (∀ r, r < 56 → ∃ rc, load constants r = some rc) ∧
    (∀ x, x < 256 → ∃ v, load S8 x = some v) ∧
    (∀ i, i < 16 → ∃ j, load key_perm i = some j ∧ j < 16) := by
  obtain ⟨c, e, -, b⟩ := skinny_run hf hp hk
  refine ⟨⟨c, e, b⟩, rfl, ?_, ?_, ?_⟩
  · intro r hr
    obtain ⟨rc, h, -⟩ := constants_six_bit r (by omega)
    exact ⟨rc, h⟩
  · intro x hx
    obtain ⟨v, h, -⟩ := S8_byte x hx
    exact ⟨v, h⟩
  · intro i hi
    interval_cases i <;> exact ⟨_, rfl, by decide⟩

theorem skinny_total_witness :
    (∃ c, skinny 60 katP katK = some c ∧ IsBytes 16 c) ∧
    constants.length = 62 ∧
    (∀ r, r < 56 → ∃ rc, load constants r = some rc) ∧
    (∀ x, x < 256 → ∃ v, load S8 x = some v) ∧
    (∀ i, i < 16 → ∃ j, load key_perm i = some j ∧ j < 16) :=
  skinny_total 60 katP katK (by decide) (by decide) (by decide)

/-! ## MixColumns, the tables and the feedback updates -/

/-- C11: the matrix-multiply `mixColumns` of the source is the closed form of the
specification: `row0' = row0 ^ row2 ^ row3`, `row1' = row0`, `row2' = row1 ^ row2`,
`row3' = row0 ^ row2`, column by column. -/
theorem mixColumns_closed_form (IS : List Nat) (h : IS.length = 16) :
    mixColumns IS = some (mixColumnsClosed IS) ∧ (mixColumnsClosed IS).length = 16 ∧
    ∀ c, c < 4 →
      cell (mixColumnsClosed IS) c = cell IS c ^^^ cell IS (8 + c) ^^^ cell IS (12 + c) ∧
      cell (mixColumnsClosed IS) (4 + c) = cell IS c ∧
      cell (mixColumnsClosed IS) (8 + c) = cell IS (4 + c) ^^^ cell IS (8 + c) ∧
      cell (mixColumnsClosed IS) (12 + c) = cell IS c ^^^ cell IS (8 + c) := by
  obtain ⟨a0, a1, a2, a3, a4, a5, a6, a7, a8, a9, a10, a11, a12, a13, a14, a15, rfl⟩ :=
    length16_cases h
  refine ⟨?_, rfl, ?_⟩
  · rw [mixColumns_eval]
    simp only [Nat.zero_xor]
    rfl
  · intro c hc
    interval_cases c <;> exact ⟨rfl, rfl, rfl, rfl⟩

theorem mixColumns_closed_form_witness :
    mixColumns katP = some (mixColumnsClosed katP) ∧ (mixColumnsClosed katP).length = 16 ∧
    ∀ c, c < 4 →
      cell (mixColumnsClosed katP) c
        = cell katP c ^^^ cell katP (8 + c) ^^^ cell katP (12 + c) ∧
      cell (mixColumnsClosed katP) (4 + c) = cell katP c ∧
      cell (mixColumnsClosed katP) (8 + c) = cell katP (4 + c) ^^^ cell katP (8 + c) ∧
      cell (mixColumnsClosed katP) (12 + c) = cell katP c ^^^ cell katP (8 + c) :=
  mixColumns_closed_form katP (by decide)

theorem S8_index_of_entry :
    ∀ x, x < 256 → (load S8 x).map (fun v => S8.indexOf v) = some x := by decide!

theorem S8_entry_of_index :
    ∀ v, v < 256 → S8.indexOf v < 256 ∧ load S8 (S8.indexOf v) = some v := by decide!

theorem load_lt {α : Type} : ∀ (xs : List α) (i : Nat) (v : α), load xs i = some v →
    i < xs.length
  | [], _, _, h => by simp [load] at h
  | _ :: _, 0, _, _ => by simp
  | _ :: xs, i + 1, v, h => by
    have := load_lt xs i v (by simpa [load] using h)
    simp only [List.length_cons]
    omega

theorem S8_inj {x y v : Nat} (hx : load S8 x = some v) (hy : load S8 y = some v) : x = y := by
  have lx : x < 256 := by have := load_lt S8 x v hx; rwa [S8_length] at this
  have ly : y < 256 := by have := load_lt S8 y v hy; rwa [S8_length] at this
  have ex := S8_index_of_entry x lx
  have ey := S8_index_of_entry y ly
  rw [hx] at ex
  rw [hy] at ey
  simp only [Option.map_some', Option.some.injEq] at ex ey
  omega

/-- C12: the S-box table `S8` is a bijection on `0..255`: equal entries have equal indices,
and every byte value is the entry of exactly one index. -/
theorem S8_bijective :
    (∀ x y, x < 256 → y < 256 → load S8 x = load S8 y → x = y) ∧
    (∀ v, v < 256 → ∃ x, x < 256 ∧ load S8 x = some v ∧
      ∀ y, y < 256 → load S8 y = some v → y = x) := by
  constructor
  · intro x y hx _ h
    obtain ⟨v, hv, -⟩ := S8_byte x hx
    exact S8_inj hv (by rw [← h]; exact hv)
  · intro v hv
    obtain ⟨h1, h2⟩ := S8_entry_of_index v hv
    exact ⟨_, h1, h2, fun y _ hy => S8_inj hy h2⟩

theorem mask_c1 {rc : Nat} (h : rc < 64) : (rc >>> 4) &&& 0x03 = rc >>> 4 := by
  have h2 : (rc >>> 4) &&& 0x03 = (rc >>> 4) % 2 ^ 2 := Nat.and_pow_two_sub_one_eq_mod _ 2
  rw [h2, Nat.shiftRight_eq_div_pow]
  omega

/-- C17: every one of the 62 entries of `constants` is at most `0x3F`, so for every round
index `r` in `0..61` the unmasked `c1 = constants[r] >> 4` is at most 3 and equals
`(constants[r] >> 4) & 0x03`, and `addConstants` with the explicit mask is `addConstants`. -/
theorem constants_mask_redundant (IS : List Nat) (r : Nat) (hr : r < 62) :
    constants.length = 62 ∧
    (∃ rc, load constants r = some rc ∧ rc ≤ 0x3F ∧ rc >>> 4 ≤ 3 ∧
      rc >>> 4 = (rc >>> 4) &&& 0x03) ∧
    addConstantsMasked IS r = addConstants IS r := by
  obtain ⟨rc, hrc, hlt⟩ := constants_six_bit r hr
  have hm := mask_c1 hlt
  refine ⟨rfl, ⟨rc, hrc, by omega, ?_, hm.symm⟩, ?_⟩
  · rw [Nat.shiftRight_eq_div_pow]; omega
  · simp only [addConstantsMasked, addConstants, hrc, bind, Option.bind, hm]

theorem constants_mask_redundant_witness :
    constants.length = 62 ∧
    (∃ rc, load constants 61 = some rc ∧ rc ≤ 0x3F ∧ rc >>> 4 ≤ 3 ∧
      rc >>> 4 = (rc >>> 4) &&& 0x03) ∧
    addConstantsMasked katP 61 = addConstants katP 61 :=
  constants_mask_redundant katP 61 (by decide)

/-- C18: `constants` is the output sequence of the 6-bit round-constant LFSR:
`constants[0] = 0x01`, each next entry is `((rc << 1) & 0x3F) | (bit5 ^ bit4 ^ 1)` of the
entry before it, and the table is the 62 states that follow the all-zero state. -/
theorem constants_are_lfsr :
    load constants 0 = some 0x01 ∧
    (∀ i, i < 61 → ∃ a b, load constants i = some a ∧ load constants (i + 1) = some b ∧
      b = (a <<< 1) &&& 0x3F ||| (bit 5 a ^^^ bit 4 a ^^^ 1)) ∧
    constants = rcSeq 62 0 := by
  refine ⟨rfl, ?_, by decide⟩
  intro i hi
  interval_cases i <;> exact ⟨_, _, rfl, rfl, by decide⟩

theorem L2_L3_inverse : ∀ x, x < 256 → L3 (L2 x) = x ∧ L2 (L3 x) = x := by decide!

/-- C19: the feedback updates of TK2 and TK3 are mutually inverse on bytes: `L3 (L2 x) = x`
and `L2 (L3 x) = x`, both mapping bytes to bytes; so the loop `LFSR for TK3` undoes the loop
`LFSR for TK2` on a 16-byte lane, and the other way round. -/
theorem lfsr_mutually_inverse (x : Nat) (TK : List Nat) (hx : x < 256) (h : IsBytes 16 TK) :
    L3 (L2 x) = x ∧ L2 (L3 x) = x ∧ L2 x < 256 ∧ L3 x < 256 ∧
    (∃ a, lfsrTK2 TK = some a ∧ lfsrTK3 a = some TK) ∧
    (∃ b, lfsrTK3 TK = some b ∧ lfsrTK2 b = some TK) := by
  obtain ⟨a0, a1, a2, a3, a4, a5, a6, a7, a8, a9, a10, a11, a12, a13, a14, a15, rfl⟩ :=
    length16_cases h.1
  obtain ⟨ha0, ha1, ha2, ha3, ha4, ha5, ha6, ha7, -⟩ :=
    (isBytes16_iff _ _ _ _ _ _ _ _ _ _ _ _ _ _ _ _).1 h
  refine ⟨(L2_L3_inverse x hx).1, (L2_L3_inverse x hx).2, L2_byte x, L3_byte hx,
    ⟨_, lfsrTK2_eval _ _ _ _ _ _ _ _ _ _ _ _ _ _ _ _, ?_⟩,
    ⟨_, lfsrTK3_eval _ _ _ _ _ _ _ _ _ _ _ _ _ _ _ _, ?_⟩⟩
  · rw [lfsrTK3_eval]
    simp only [lfsr2_eq_L2, lfsr3_eq_L3]
    rw [(L2_L3_inverse a0 ha0).1, (L2_L3_inverse a1 ha1).1, (L2_L3_inverse a2 ha2).1,
      (L2_L3_inverse a3 ha3).1, (L2_L3_inverse a4 ha4).1, (L2_L3_inverse a5 ha5).1,
      (L2_L3_inverse a6 ha6).1, (L2_L3_inverse a7 ha7).1]
  · rw [lfsrTK2_eval]
    simp only [lfsr2_eq_L2, lfsr3_eq_L3]
    rw [(L2_L3_inverse a0 ha0).2, (L2_L3_inverse a1 ha1).2, (L2_L3_inverse a2 ha2).2,
      (L2_L3_inverse a3 ha3).2, (L2_L3_inverse a4 ha4).2, (L2_L3_inverse a5 ha5).2,
      (L2_L3_inverse a6 ha6).2, (L2_L3_inverse a7 ha7).2]

theorem lfsr_mutually_inverse_witness :
    L3 (L2 0xa5) = 0xa5 ∧ L2 (L3 0xa5) = 0xa5 ∧ L2 0xa5 < 256 ∧ L3 0xa5 < 256 ∧
    (∃ a, lfsrTK2 katP = some a ∧ lfsrTK3 a = some katP) ∧
    (∃ b, lfsrTK3 katP = some b ∧ lfsrTK2 b = some katP) :=
  lfsr_mutually_inverse 0xa5 katP (by decide) (by decide)

/-! ## ShiftRows is a permutation; AddConstants and AddRoundTweakey commute -/

theorem shiftRows_index_perm :
    [0, 1, 2, 3, 7, 4, 5, 6, 10, 11, 8, 9, 13, 14, 15, 12].Perm (List.range 16) := by decide

theorem shiftRows_inj {a b x : List Nat} (ha : a.length = 16) (hb : b.length = 16)
    (h1 : shiftRows a = some x) (h2 : shiftRows b = some x) : a = b := by
  obtain ⟨a0, a1, a2, a3, a4, a5, a6, a7, a8, a9, a10, a11, a12, a13, a14, a15, rfl⟩ :=
    length16_cases ha
  obtain ⟨b0, b1, b2, b3, b4, b5, b6, b7, b8, b9, b10, b11, b12, b13, b14, b15, rfl⟩ :=
    length16_cases hb
  rw [shiftRows_eval] at h1 h2
  rw [← h1] at h2
  simp only [Option.some.injEq, List.cons.injEq, and_true] at h2
  obtain ⟨e0, e1, e2, e3, e7, e4, e5, e6, e10, e11, e8, e9, e13, e14, e15, e12⟩ := h2
  subst e0 e1 e2 e3 e4 e5 e6 e7 e8 e9 e10 e11 e12 e13 e14 e15
  rfl

/-- C13: `shiftRows` is an invertible permutation of the state: it is injective on 16-byte
states, every 16-byte state is the image of a 16-byte state, and the output holds the cells
of the input, each with the same multiplicity. -/
theorem shiftRows_bijective (a b : List Nat) (ha : IsBytes 16 a) (hb : IsBytes 16 b) :
    (shiftRows a = shiftRows b → a = b) ∧
    (∃ x, IsBytes 16 x ∧ shiftRows x = some b) ∧
    (∃ a', shiftRows a = some a' ∧ a'.Perm a) := by
  refine ⟨?_, ?_, ?_⟩
  · intro h
    obtain ⟨x, hx, -⟩ := shiftRows_bytes hb
    exact shiftRows_inj ha.1 hb.1 (h.trans hx) hx
  · obtain ⟨b0, b1, b2, b3, b4, b5, b6, b7, b8, b9, b10, b11, b12, b13, b14, b15, rfl⟩ :=
      length16_cases hb.1
    obtain ⟨h0, h1, h2, h3, h4, h5, h6, h7, h8, h9, h10, h11, h12, h13, h14, h15⟩ :=
      (isBytes16_iff _ _ _ _ _ _ _ _ _ _ _ _ _ _ _ _).1 hb
    exact ⟨[b0, b1, b2, b3, b5, b6, b7, b4, b10, b11, b8, b9, b15, b12, b13, b14],
      (isBytes16_iff _ _ _ _ _ _ _ _ _ _ _ _ _ _ _ _).2
        ⟨h0, h1, h2, h3, h5, h6, h7, h4, h10, h11, h8, h9, h15, h12, h13, h14⟩,
      shiftRows_eval _ _ _ _ _ _ _ _ _ _ _ _ _ _ _ _⟩
  · obtain ⟨a0, a1, a2, a3, a4, a5, a6, a7, a8, a9, a10, a11, a12, a13, a14, a15, rfl⟩ :=
      length16_cases ha.1
    exact ⟨_, shiftRows_eval _ _ _ _ _ _ _ _ _ _ _ _ _ _ _ _,
      shiftRows_index_perm.map
        (cell [a0, a1, a2, a3, a4, a5, a6, a7, a8, a9, a10, a11, a12, a13, a14, a15])⟩

theorem shiftRows_bijective_witness :
    (shiftRows katP = shiftRows katC → katP = katC) ∧
    (∃ x, IsBytes 16 x ∧ shiftRows x = some katC) ∧
    (∃ a', shiftRows katP = some a' ∧ a'.Perm katP) :=
  shiftRows_bijective katP katC (by decide) (by decide)

theorem swap_values {IS TK1 TK2 TK3 : List Nat} {r : Nat} (hIS : IS.length = 16)
    (h1 : TK1.length = 16) (h2 : TK2.length = 16) (h3 : TK3.length = 16) (hr : r < 62) :
    ∃ X Y Z U1 U2 U3, addConstants IS r = some X ∧
      addRoundTweakey X TK1 TK2 TK3 = some (Y, U1, U2, U3) ∧
      addRoundTweakey IS TK1 TK2 TK3 = some (Z, U1, U2, U3) ∧
      addConstants Z r = some Y := by
  obtain ⟨a0, a1, a2, a3, a4, a5, a6, a7, a8, a9, a10, a11, a12, a13, a14, a15, rfl⟩ :=
    length16_cases hIS
  obtain ⟨b0, b1, b2, b3, b4, b5, b6, b7, b8, b9, b10, b11, b12, b13, b14, b15, rfl⟩ :=
    length16_cases h1
  obtain ⟨c0, c1, c2, c3, c4, c5, c6, c7, c8, c9, c10, c11, c12, c13, c14, c15, rfl⟩ :=
    length16_cases h2
  obtain ⟨d0, d1, d2, d3, d4, d5, d6, d7, d8, d9, d10, d11, d12, d13, d14, d15, rfl⟩ :=
    length16_cases h3
  obtain ⟨rc, hrc, -⟩ := constants_six_bit r hr
  refine ⟨_, _, _, _, _, _, addConstants_eval _ _ _ _ _ _ _ _ _ _ _ _ _ _ _ _ r rc hrc,
    addRoundTweakey_eval _ _ _ _ _ _ _ _ _ _ _ _ _ _ _ _ _ _ _ _ _ _ _ _ _ _ _ _ _ _ _ _ _
      _ _ _ _ _ _ _ _ _ _ _ _ _ _ _ _ _ _ _ _ _ _ _ _ _ _ _ _ _ _ _,
    addRoundTweakey_eval _ _ _ _ _ _ _ _ _ _ _ _ _ _ _ _ _ _ _ _ _ _ _ _ _ _ _ _ _ _ _ _ _
      _ _ _ _ _ _ _ _ _ _ _ _ _ _ _ _ _ _ _ _ _ _ _ _ _ _ _ _ _ _ _, ?_⟩
  rw [addConstants_eval _ _ _ _ _ _ _ _ _ _ _ _ _ _ _ _ r rc hrc]
  have e0 : a0 ^^^ b0 ^^^ c0 ^^^ d0 ^^^ ((rc <<< 4) % 256) >>> 4
      = a0 ^^^ ((rc <<< 4) % 256) >>> 4 ^^^ b0 ^^^ c0 ^^^ d0 := by ac_rfl
  have e4 : a4 ^^^ b4 ^^^ c4 ^^^ d4 ^^^ rc >>> 4 = a4 ^^^ rc >>> 4 ^^^ b4 ^^^ c4 ^^^ d4 := by
    ac_rfl
  rw [e0, e4]

theorem whileLoop_congr {σ : Type} (cond : σ → Bool) (b1 b2 : σ → Option σ) (Inv : σ → Prop)
    (hagree : ∀ s, Inv s → cond s = true → b1 s = b2 s)
    (hpres : ∀ s s', Inv s → cond s = true → b1 s = some s' → Inv s') :
    ∀ (fuel : Nat) (s : σ), Inv s → whileLoop cond b1 fuel s = whileLoop cond b2 fuel s := by
  intro fuel
  induction fuel with
  | zero => intro s _; rfl
  | succ f ih =>
    intro s hs
    rw [whileLoop, whileLoop]
    by_cases hc : cond s = true
    · rw [if_pos hc, if_pos hc, ← hagree s hs hc]
      cases hb : b1 s with
      | none => rfl
      | some s' => exact ih s' (hpres s s' hs hc hb)
    · rw [if_neg hc, if_neg hc]

theorem roundBody_lanesOk {s s' : Locals} (hs : LanesOk s) (hr : s.round < 62)
    (h : roundBody s = some s') : LanesOk s' := by
  obtain ⟨st', e, ok⟩ := @cipherRound_total s.round (s.IS, s.TK1, s.TK2, s.TK3)
    hr hs
  have hb := roundBody_eq s.round (s.IS, s.TK1, s.TK2, s.TK3)
  have hb' : roundBody s = (cipherRound s.round (s.IS, s.TK1, s.TK2, s.TK3)).map
      (mkLocals (s.round + 1)) := hb
  rw [hb', e] at h
  simp only [Option.map_some', Option.some.injEq] at h
  rw [← h]
  exact ok

theorem roundBodySwapped_eq {s : Locals} (hs : LanesOk s) (hr : s.round < 62) :
    roundBody s = roundBodySwapped s := by
  obtain ⟨h0, h1, h2, h3⟩ := hs
  obtain ⟨W, eW, bW⟩ := subCells_bytes h0
  obtain ⟨X, Y, Z, U1, U2, U3, eX, eY, eZ, eY'⟩ := swap_values bW.1 h1.1 h2.1 h3.1 hr
  simp only [roundBody, roundBodySwapped, eW, eX, eY, eZ, eY', bind, Option.bind]

theorem initial_copies {p k : List Nat} (hp : IsBytes 16 p) (hk : IsBytes 48 k) :
    memcpy (List.replicate 16 0) p 0 16 = some p ∧
    memcpy (List.replicate 16 0) k 0 16 = some (k.take 16) ∧
    memcpy (List.replicate 16 0) k 16 16 = some ((k.drop 16).take 16) ∧
    memcpy (List.replicate 16 0) k 32 16 = some ((k.drop 32).take 16) ∧
    IsBytes 16 (k.take 16) ∧ IsBytes 16 ((k.drop 16).take 16) ∧
    IsBytes 16 ((k.drop 32).take 16) := by
  refine ⟨?_, ?_, memcpy_slice (by have := hk.1; omega) (by simp),
    memcpy_slice (by have := hk.1; omega) (by simp), ?_, isBytes_slice hk 16 16 (by decide),
    isBytes_slice hk 32 16 (by decide)⟩
  · rw [memcpy_slice (by have := hp.1; omega) (by simp), List.drop_zero,
      List.take_of_length_le]
    rw [hp.1]
  · rw [memcpy_slice (by have := hk.1; omega) (by simp), List.drop_zero]
  · have := isBytes_slice hk 0 16 (by decide)
    rwa [List.drop_zero] at this

theorem skinnySwapped_eq {p k : List Nat} (fuel : Nat) (hp : IsBytes 16 p)
    (hk : IsBytes 48 k) : skinnySwapped fuel p k = skinny fuel p k := by
  obtain ⟨ep, e1, e2, e3, b1, b2, b3⟩ := initial_copies hp hk
  have hloop : whileLoop (fun s => decide (s.round < 56)) roundBody fuel
        ⟨0, p, k.take 16, (k.drop 16).take 16, (k.drop 32).take 16⟩
      = whileLoop (fun s => decide (s.round < 56)) roundBodySwapped fuel
        ⟨0, p, k.take 16, (k.drop 16).take 16, (k.drop 32).take 16⟩ :=
    whileLoop_congr _ _ _ LanesOk
      (fun s hs hc => roundBodySwapped_eq hs (by have := of_decide_eq_true hc; omega))
      (fun s s' hs hc h => roundBody_lanesOk hs (by have := of_decide_eq_true hc; omega) h)
      fuel _ ⟨hp, b1, b2, b3⟩
  simp only [skinny, skinnySwapped, ep, e1, e2, e3, bind, Option.bind, hloop]

/-- C20: `addConstants` and `addRoundTweakey` commute: for a round index `r` in `0..61`,
either order gives the same final state and the same three lanes; and `skinny` with the two
steps swapped in every round returns the same result as `skinny`, that is, the same
ciphertext. -/
theorem addConstants_addRoundTweakey_commute (IS TK1 TK2 TK3 p k : List Nat) (r fuel : Nat)
    (hIS : IS.length = 16) (h1 : TK1.length = 16) (h2 : TK2.length = 16)
    (h3 : TK3.length = 16) (hr : r < 62) (hp : IsBytes 16 p) (hk : IsBytes 48 k) :
    (∃ IS' TK1' TK2' TK3',
      (addConstants IS r).bind (fun x => addRoundTweakey x TK1 TK2 TK3)
        = some (IS', TK1', TK2', TK3') ∧
      (addRoundTweakey IS TK1 TK2 TK3).bind
          (fun q => (addConstants q.1 r).map (fun x => (x, q.2)))
        = some (IS', TK1', TK2', TK3')) ∧
    skinnySwapped fuel p k = skinny fuel p k := by
  obtain ⟨X, Y, Z, U1, U2, U3, eX, eY, eZ, eY'⟩ := swap_values hIS h1 h2 h3 hr
  refine ⟨⟨Y, U1, U2, U3, ?_, ?_⟩, skinnySwapped_eq fuel hp hk⟩
  · rw [eX]; exact eY
  · rw [eZ]
    simp only [Option.bind, eY', Option.map_some']

theorem addConstants_addRoundTweakey_commute_witness :
    (∃ IS' TK1' TK2' TK3',
      (addConstants katP 61).bind (fun x => addRoundTweakey x katC katP katC)
        = some (IS', TK1', TK2', TK3') ∧
      (addRoundTweakey katP katC katP katC).bind
          (fun q => (addConstants q.1 61).map (fun x => (x, q.2)))
        = some (IS', TK1', TK2', TK3')) ∧
    skinnySwapped 57 katP katK = skinny 57 katP katK :=
  addConstants_addRoundTweakey_commute katP katC katP katC katP katK 61 57
    (by decide) (by decide) (by decide) (by decide) (by decide) (by decide) (by decide)

/-! ## Every round step is injective on the state -/

theorem eq_of_cells {a b : List Nat} (ha : a.length = 16) (hb : b.length = 16)
    (h : ∀ i, i < 16 → cell a i = cell b i) : a = b := by
  obtain ⟨a0, a1, a2, a3, a4, a5, a6, a7, a8, a9, a10, a11, a12, a13, a14, a15, rfl⟩ :=
    length16_cases ha
  obtain ⟨b0, b1, b2, b3, b4, b5, b6, b7, b8, b9, b10, b11, b12, b13, b14, b15, rfl⟩ :=
    length16_cases hb
  have e0 : a0 = b0 := h 0 (by decide)
  have e1 : a1 = b1 := h 1 (by decide)
  have e2 : a2 = b2 := h 2 (by decide)
  have e3 : a3 = b3 := h 3 (by decide)
  have e4 : a4 = b4 := h 4 (by decide)
  have e5 : a5 = b5 := h 5 (by decide)
  have e6 : a6 = b6 := h 6 (by decide)
  have e7 : a7 = b7 := h 7 (by decide)
  have e8 : a8 = b8 := h 8 (by decide)
  have e9 : a9 = b9 := h 9 (by decide)
  have e10 : a10 = b10 := h 10 (by decide)
  have e11 : a11 = b11 := h 11 (by decide)
  have e12 : a12 = b12 := h 12 (by decide)
  have e13 : a13 = b13 := h 13 (by decide)
  have e14 : a14 = b14 := h 14 (by decide)
  have e15 : a15 = b15 := h 15 (by decide)
  subst e0 e1 e2 e3 e4 e5 e6 e7 e8 e9 e10 e11 e12 e13 e14 e15
  rfl

theorem subCells_cells {a x : List Nat} (ha : IsBytes 16 a) (h : subCells a = some x) :
    x.length = 16 ∧ ∀ i, i < 16 → load S8 (cell a i) = some (cell x i) := by
  obtain ⟨a0, a1, a2, a3, a4, a5, a6, a7, a8, a9, a10, a11, a12, a13, a14, a15, rfl⟩ :=
    length16_cases ha.1
  obtain ⟨ha0, ha1, ha2, ha3, ha4, ha5, ha6, ha7, ha8, ha9, ha10, ha11, ha12, ha13, ha14,
    ha15⟩ := (isBytes16_iff _ _ _ _ _ _ _ _ _ _ _ _ _ _ _ _).1 ha
  obtain ⟨v0, e0, -⟩ := S8_byte a0 ha0
  obtain ⟨v1, e1, -⟩ := S8_byte a1 ha1
  obtain ⟨v2, e2, -⟩ := S8_byte a2 ha2
  obtain ⟨v3, e3, -⟩ := S8_byte a3 ha3
  obtain ⟨v4, e4, -⟩ := S8_byte a4 ha4
  obtain ⟨v5, e5, -⟩ := S8_byte a5 ha5
  obtain ⟨v6, e6, -⟩ := S8_byte a6 ha6
  obtain ⟨v7, e7, -⟩ := S8_byte a7 ha7
  obtain ⟨v8, e8, -⟩ := S8_byte a8 ha8
  obtain ⟨v9, e9, -⟩ := S8_byte a9 ha9
  obtain ⟨v10, e10, -⟩ := S8_byte a10 ha10
  obtain ⟨v11, e11, -⟩ := S8_byte a11 ha11
  obtain ⟨v12, e12, -⟩ := S8_byte a12 ha12
  obtain ⟨v13, e13, -⟩ := S8_byte a13 ha13
  obtain ⟨v14, e14, -⟩ := S8_byte a14 ha14
  obtain ⟨v15, e15, -⟩ := S8_byte a15 ha15
  rw [subCells_eval _ _ _ _ _ _ _ _ _ _ _ _ _ _ _ _ _ _ _ _ _ _ _ _ _ _ _ _ _ _ _ _
    e0 e1 e2 e3 e4 e5 e6 e7 e8 e9 e10 e11 e12 e13 e14 e15] at h
  simp only [Option.some.injEq] at h
  subst h
  refine ⟨rfl, ?_⟩
  intro i hi
  interval_cases i <;> assumption

theorem subCells_inj {a b x : List Nat} (ha : IsBytes 16 a) (hb : IsBytes 16 b)
    (h1 : subCells a = some x) (h2 : subCells b = some x) : a = b := by
  obtain ⟨-, c1⟩ := subCells_cells ha h1
  obtain ⟨-, c2⟩ := subCells_cells hb h2
  exact eq_of_cells ha.1 hb.1 (fun i hi => S8_inj (c1 i hi) (c2 i hi))

theorem addConstants_inj {a b x : List Nat} {r : Nat} (ha : a.length = 16)
    (hb : b.length = 16) (hr : r < 62) (h1 : addConstants a r = some x)
    (h2 : addConstants b r = some x) : a = b := by
  obtain ⟨a0, a1, a2, a3, a4, a5, a6, a7, a8, a9, a10, a11, a12, a13, a14, a15, rfl⟩ :=
    length16_cases ha
  obtain ⟨b0, b1, b2, b3, b4, b5, b6, b7, b8, b9, b10, b11, b12, b13, b14, b15, rfl⟩ :=
    length16_cases hb
  obtain ⟨rc, hrc, -⟩ := constants_six_bit r hr
  rw [addConstants_eval _ _ _ _ _ _ _ _ _ _ _ _ _ _ _ _ r rc hrc] at h1 h2
  rw [← h1] at h2
  simp only [Option.some.injEq, List.cons.injEq, Nat.xor_left_inj, and_true] at h2
  obtain ⟨e0, e1, e2, e3, e4, e5, e6, e7, e8, e9, e10, e11, e12, e13, e14, e15⟩ := h2
  subst e0 e1 e2 e3 e4 e5 e6 e7 e8 e9 e10 e11 e12 e13 e14 e15
  rfl

theorem addRoundTweakey_inj {a b T1 T2 T3 x y : List Nat}
    {U V : List Nat × List Nat × List Nat} (ha : a.length = 16) (hb : b.length = 16)
    (l1 : T1.length = 16) (l2 : T2.length = 16) (l3 : T3.length = 16)
    (h1 : addRoundTweakey a T1 T2 T3 = some (x, U))
    (h2 : addRoundTweakey b T1 T2 T3 = some (y, V)) : U = V ∧ (x = y → a = b) := by
  obtain ⟨a0, a1, a2, a3, a4, a5, a6, a7, a8, a9, a10, a11, a12, a13, a14, a15, rfl⟩ :=
    length16_cases ha
  obtain ⟨b0, b1, b2, b3, b4, b5, b6, b7, b8, b9, b10, b11, b12, b13, b14, b15, rfl⟩ :=
    length16_cases hb
  obtain ⟨c0, c1, c2, c3, c4, c5, c6, c7, c8, c9, c10, c11, c12, c13, c14, c15, rfl⟩ :=
    length16_cases l1
  obtain ⟨d0, d1, d2, d3, d4, d5, d6, d7, d8, d9, d10, d11, d12, d13, d14, d15, rfl⟩ :=
    length16_cases l2
  obtain ⟨g0, g1, g2, g3, g4, g5, g6, g7, g8, g9, g10, g11, g12, g13, g14, g15, rfl⟩ :=
    length16_cases l3
  rw [addRoundTweakey_eval] at h1 h2
  simp only [Option.some.injEq, Prod.mk.injEq] at h1 h2
  obtain ⟨hx, hU⟩ := h1
  obtain ⟨hy, hV⟩ := h2
  refine ⟨by rw [← hU, ← hV], ?_⟩
  intro hxy
  rw [← hx, ← hy] at hxy
  simp only [List.cons.injEq, Nat.xor_left_inj, and_true] at hxy
  obtain ⟨e0, e1, e2, e3, e4, e5, e6, e7, e8, e9, e10, e11, e12, e13, e14, e15⟩ := hxy
  subst e0 e1 e2 e3 e4 e5 e6 e7 e8 e9 e10 e11 e12 e13 e14 e15
  rfl

theorem mixColumns_inj {a b x : List Nat} (ha : a.length = 16) (hb : b.length = 16)
    (h1 : mixColumns a = some x) (h2 : mixColumns b = some x) : a = b := by
  obtain ⟨a0, a1, a2, a3, a4, a5, a6, a7, a8, a9, a10, a11, a12, a13, a14, a15, rfl⟩ :=
    length16_cases ha
  obtain ⟨b0, b1, b2, b3, b4, b5, b6, b7, b8, b9, b10, b11, b12, b13, b14, b15, rfl⟩ :=
    length16_cases hb
  rw [mixColumns_eval] at h1 h2
  rw [← h1] at h2
  simp only [Option.some.injEq, List.cons.injEq, Nat.zero_xor, and_true] at h2
  obtain ⟨r0, r1, r2, r3, e0, e1, e2, e3, s0, s1, s2, s3, t0, t1, t2, t3⟩ := h2
  subst e0 e1 e2 e3
  rw [Nat.xor_right_inj] at t0 t1 t2 t3
  subst t0 t1 t2 t3
  rw [Nat.xor_left_inj] at s0 s1 s2 s3
  rw [Nat.xor_right_inj] at r0 r1 r2 r3
  subst s0 s1 s2 s3 r0 r1 r2 r3
  rfl

theorem cipherRound_inj {r : Nat} {IS1 IS2 T1 T2 T3 y1 y2 : List Nat}
    {V1 V2 : List Nat × List Nat × List Nat} (hr : r < 62)
    (ok1 : LanesOk (mkLocals r (IS1, T1, T2, T3)))
    (ok2 : LanesOk (mkLocals r (IS2, T1, T2, T3)))
    (h1 : cipherRound r (IS1, T1, T2, T3) = some (y1, V1))
    (h2 : cipherRound r (IS2, T1, T2, T3) = some (y2, V2)) :
    V1 = V2 ∧ (y1 = y2 → IS1 = IS2) := by
  obtain ⟨hIS1, hT1, hT2, hT3⟩ := ok1
  obtain ⟨hIS2, -, -, -⟩ := ok2
  obtain ⟨x1, e1, b1⟩ := subCells_bytes hIS1
  obtain ⟨x2, e2, b2⟩ := addConstants_bytes hr b1
  obtain ⟨x3, t1, t2, t3, e3, b3, -, -, -⟩ := addRoundTweakey_bytes b2 hT1 hT2 hT3
  obtain ⟨x4, e4, b4⟩ := shiftRows_bytes b3
  obtain ⟨x5, e5, -⟩ := mixColumns_bytes b4
  obtain ⟨z1, f1, c1⟩ := subCells_bytes hIS2
  obtain ⟨z2, f2, c2⟩ := addConstants_bytes hr c1
  obtain ⟨z3, u1, u2, u3, f3, c3, -, -, -⟩ := addRoundTweakey_bytes c2 hT1 hT2 hT3
  obtain ⟨z4, f4, c4⟩ := shiftRows_bytes c3
  obtain ⟨z5, f5, -⟩ := mixColumns_bytes c4
  have e1' : subCells (IS1, T1, T2, T3).1 = some x1 := e1
  have f1' : subCells (IS2, T1, T2, T3).1 = some z1 := f1
  have e3' : addRoundTweakey x2 (IS1, T1, T2, T3).2.1 (IS1, T1, T2, T3).2.2.1
      (IS1, T1, T2, T3).2.2.2 = some (x3, t1, t2, t3) := e3
  have f3' : addRoundTweakey z2 (IS2, T1, T2, T3).2.1 (IS2, T1, T2, T3).2.2.1
      (IS2, T1, T2, T3).2.2.2 = some (z3, u1, u2, u3) := f3
  simp only [cipherRound, e1', e2, e3', e4, e5, Option.bind, Option.some.injEq,
    Prod.mk.injEq] at h1
  simp only [cipherRound, f1', f2, f3', f4, f5, Option.bind, Option.some.injEq,
    Prod.mk.injEq] at h2
  obtain ⟨hy1, hV1⟩ := h1
  obtain ⟨hy2, hV2⟩ := h2
  obtain ⟨hUV, hinj⟩ := addRoundTweakey_inj b2.1 c2.1 hT1.1 hT2.1 hT3.1 e3 f3
  refine ⟨by rw [← hV1, ← hV2, hUV], ?_⟩
  intro hy
  have h5 : x5 = z5 := by rw [hy1, hy2, hy]
  have h4 : x4 = z4 := mixColumns_inj b4.1 c4.1 e5 (by rw [h5]; exact f5)
  have h3 : x3 = z3 := shiftRows_inj b3.1 c3.1 e4 (by rw [h4]; exact f4)
  have h2' : x2 = z2 := hinj h3
  have h1' : x1 = z1 := addConstants_inj b1.1 c1.1 hr e2 (by rw [h2']; exact f2)
  exact subCells_inj hIS1 hIS2 e1 (by rw [h1']; exact f1)

theorem fold_inj (n : Nat) :
    ∀ (r : Nat) (IS1 IS2 T1 T2 T3 : List Nat)
      (o1 o2 : List Nat × List Nat × List Nat × List Nat),
      r + n = 56 → LanesOk (mkLocals r (IS1, T1, T2, T3)) →
      LanesOk (mkLocals r (IS2, T1, T2, T3)) →
      (List.range' r n).foldlM (fun st r => cipherRound r st) (IS1, T1, T2, T3) = some o1 →
      (List.range' r n).foldlM (fun st r => cipherRound r st) (IS2, T1, T2, T3) = some o2 →
      o1.1 = o2.1 → IS1 = IS2 := by
  induction n with
  | zero =>
    intro r IS1 IS2 T1 T2 T3 o1 o2 _ _ _ h1 h2 h
    simp only [List.range'_zero, List.foldlM_nil, pure, Option.some.injEq] at h1 h2
    rw [← h1, ← h2] at h
    exact h
  | succ n ih =>
    intro r IS1 IS2 T1 T2 T3 o1 o2 hr ok1 ok2 h1 h2 h
    obtain ⟨⟨y1, U1, U2, U3⟩, e1, k1⟩ := cipherRound_total (r := r) (by omega) ok1
    obtain ⟨⟨y2, V1, V2, V3⟩, e2, k2⟩ := cipherRound_total (r := r) (by omega) ok2
    obtain ⟨hUV, hinj⟩ := cipherRound_inj (r := r) (by omega) ok1 ok2 e1 e2
    simp only [Prod.mk.injEq] at hUV
    obtain ⟨rfl, rfl, rfl⟩ := hUV
    rw [List.range'_succ, List.foldlM_cons, e1] at h1
    rw [List.range'_succ, List.foldlM_cons, e2] at h2
    exact hinj (ih (r + 1) y1 y2 U1 U2 U3 o1 o2 (by omega) k1 k2 h1 h2 h)

/-! ## The order of the steps, and the lengths of the buffers -/

theorem skinnyReordered_kat :
    skinnyReordered katP katK = some [0x63, 0xda, 0x60, 0x13, 0x66, 0x4a, 0x5d, 0x2f,
      0x81, 0x2d, 0xda, 0x40, 0x3a, 0x99, 0xee, 0x8a] := by decide!

/-- C14: the order of the steps inside a round matters: on the known-answer input, the
variant cipher that applies addRoundTweakey before subCells and addConstants in each of the
56 rounds produces a ciphertext different from the one `skinny` produces. -/
theorem step_order_matters :
    ∃ c', skinnyReordered katP katK = some c' ∧ skinny 57 katP katK = some katC ∧
      c' ≠ katC :=
  ⟨_, skinnyReordered_kat, skinny_kat_57, by decide⟩

theorem memcpy_take_src (dst src : List Nat) (off n m : Nat) (h1 : off + n ≤ m)
    (h2 : m ≤ src.length) : memcpy dst (src.take m) off n = memcpy dst src off n := by
  have hl : (src.take m).length = m := by rw [List.length_take]; omega
  have hc1 : off + n ≤ (src.take m).length := by omega
  have hc2 : off + n ≤ src.length := by omega
  have hv : ((src.take m).drop off).take n = (src.drop off).take n := by
    rw [List.drop_take, List.take_take]
    congr 1
    omega
  simp only [memcpy, hc1, hc2, true_and, hv]

theorem skinny_take (fuel : Nat) {p k : List Nat} (hp : 16 ≤ p.length)
    (hk : 48 ≤ k.length) : skinny fuel p k = skinny fuel (p.take 16) (k.take 48) := by
  have e0 := memcpy_take_src (List.replicate 16 0) p 0 16 16 (by decide) hp
  have e1 := memcpy_take_src (List.replicate 16 0) k 0 16 48 (by decide) hk
  have e2 := memcpy_take_src (List.replicate 16 0) k 16 16 48 (by decide) hk
  have e3 := memcpy_take_src (List.replicate 16 0) k 32 16 48 (by decide) hk
  simp only [skinny, e0, e1, e2, e3]

theorem isBytes_take {xs : List Nat} {n : Nat} (hn : n ≤ xs.length)
    (hb : ∀ x ∈ xs, x < 256) : IsBytes n (xs.take n) := by
  refine ⟨?_, fun x hx => hb x (List.mem_of_mem_take hx)⟩
  rw [List.length_take]
  omega

/-- C15, as the code has it: `skinny` checks no length.  A 17-byte plaintext is not
rejected: the call returns the ciphertext of its first 16 bytes. -/
theorem skinny_accepts_long_plaintext :
    (katP ++ [0xff]).length = 17 ∧ katK.length = 48 ∧
      skinny 57 (katP ++ [0xff]) katK = some katC := by
  refine ⟨by decide, by decide, ?_⟩
  rw [skinny_take 57 (by decide) (by decide)]
  exact skinny_kat_57

/-- C15, amended: `skinny` performs no length check and has no error result.  Whenever at
least 16 bytes stand at `p` and at least 48 bytes at `k`, exactly so many or more, the call
is not rejected: it returns a 16-byte ciphertext, the one of the first 16 bytes of `p` under
the first 48 bytes of `k`, produced by all 56 rounds of the specification; the bytes that
follow are ignored. -/
theorem skinny_no_length_check (fuel : Nat) (p k : List Nat) (hf : 57 ≤ fuel)
    (hp : 16 ≤ p.length) (hk : 48 ≤ k.length) (bp : ∀ x ∈ p, x < 256)
    (bk : ∀ x ∈ k, x < 256) :
    ∃ c, skinny fuel p k = some c ∧ IsBytes 16 c ∧
      skinny fuel (p.take 16) (k.take 48) = some c ∧
      skinnySpec (p.take 16) (k.take 48) = some c := by
  obtain ⟨c, e, s, b⟩ := skinny_run hf (isBytes_take hp bp) (isBytes_take hk bk)
  refine ⟨c, ?_, b, e, s⟩
  rw [skinny_take fuel hp hk]
  exact e

theorem skinny_no_length_check_witness :
    ∃ c, skinny 57 (katP ++ [1]) (katK ++ [2, 3]) = some c ∧ IsBytes 16 c ∧
      skinny 57 ((katP ++ [1]).take 16) ((katK ++ [2, 3]).take 48) = some c ∧
      skinnySpec ((katP ++ [1]).take 16) ((katK ++ [2, 3]).take 48) = some c :=
  skinny_no_length_check 57 (katP ++ [1]) (katK ++ [2, 3]) (by decide) (by decide)
    (by decide) (by decide) (by decide)

/-! ## Every round step is onto the 16-byte states; `skinny` permutes the blocks -/

theorem xor_key_cancel (y b c d : Nat) : y ^^^ b ^^^ c ^^^ d ^^^ b ^^^ c ^^^ d = y := by
  have h : y ^^^ b ^^^ c ^^^ d ^^^ b ^^^ c ^^^ d = (y ^^^ (b ^^^ c ^^^ d)) ^^^ (b ^^^ c ^^^ d) := by
    ac_rfl
  rw [h, Nat.xor_cancel_right]

theorem subCells_surj {x : List Nat} (hx : IsBytes 16 x) :
    ∃ a, IsBytes 16 a ∧ subCells a = some x := by
  obtain ⟨x0, x1, x2, x3, x4, x5, x6, x7, x8, x9, x10, x11, x12, x13, x14, x15, rfl⟩ :=
    length16_cases hx.1
  obtain ⟨h0, h1, h2, h3, h4, h5, h6, h7, h8, h9, h10, h11, h12, h13, h14, h15⟩ :=
    (isBytes16_iff _ _ _ _ _ _ _ _ _ _ _ _ _ _ _ _).1 hx
  obtain ⟨l0, e0⟩ := S8_entry_of_index x0 h0
  obtain ⟨l1, e1⟩ := S8_entry_of_index x1 h1
  obtain ⟨l2, e2⟩ := S8_entry_of_index x2 h2
  obtain ⟨l3, e3⟩ := S8_entry_of_index x3 h3
  obtain ⟨l4, e4⟩ := S8_entry_of_index x4 h4
  obtain ⟨l5, e5⟩ := S8_entry_of_index x5 h5
  obtain ⟨l6, e6⟩ := S8_entry_of_index x6 h6
  obtain ⟨l7, e7⟩ := S8_entry_of_index x7 h7
  obtain ⟨l8, e8⟩ := S8_entry_of_index x8 h8
  obtain ⟨l9, e9⟩ := S8_entry_of_index x9 h9
  obtain ⟨l10, e10⟩ := S8_entry_of_index x10 h10
  obtain ⟨l11, e11⟩ := S8_entry_of_index x11 h11
  obtain ⟨l12, e12⟩ := S8_entry_of_index x12 h12
  obtain ⟨l13, e13⟩ := S8_entry_of_index x13 h13
  obtain ⟨l14, e14⟩ := S8_entry_of_index x14 h14
  obtain ⟨l15, e15⟩ := S8_entry_of_index x15 h15
  exact ⟨_, (isBytes16_iff _ _ _ _ _ _ _ _ _ _ _ _ _ _ _ _).2
      ⟨l0, l1, l2, l3, l4, l5, l6, l7, l8, l9, l10, l11, l12, l13, l14, l15⟩,
    subCells_eval _ _ _ _ _ _ _ _ _ _ _ _ _ _ _ _ _ _ _ _ _ _ _ _ _ _ _ _ _ _ _ _
      e0 e1 e2 e3 e4 e5 e6 e7 e8 e9 e10 e11 e12 e13 e14 e15⟩

theorem addConstants_surj {x : List Nat} {r : Nat} (hr : r < 62) (hx : IsBytes 16 x) :
    ∃ a, IsBytes 16 a ∧ addConstants a r = some x := by
  obtain ⟨a, ea, ba⟩ := addConstants_bytes hr hx
  refine ⟨a, ba, ?_⟩
  obtain ⟨x0, x1, x2, x3, x4, x5, x6, x7, x8, x9, x10, x11, x12, x13, x14, x15, rfl⟩ :=
    length16_cases hx.1
  obtain ⟨rc, hrc, -⟩ := constants_six_bit r hr
  rw [addConstants_eval _ _ _ _ _ _ _ _ _ _ _ _ _ _ _ _ r rc hrc] at ea
  simp only [Option.some.injEq] at ea
  subst ea
  rw [addConstants_eval _ _ _ _ _ _ _ _ _ _ _ _ _ _ _ _ r rc hrc]
  simp only [Nat.xor_cancel_right]

theorem addRoundTweakey_surj {y T1 T2 T3 : List Nat} (hy : IsBytes 16 y)
    (h1 : IsBytes 16 T1) (h2 : IsBytes 16 T2) (h3 : IsBytes 16 T3) :
    ∃ a U, IsBytes 16 a ∧ addRoundTweakey a T1 T2 T3 = some (y, U) := by
  obtain ⟨a, u1, u2, u3, ea, ba, -, -, -⟩ := addRoundTweakey_bytes hy h1 h2 h3
  refine ⟨a, (u1, u2, u3), ba, ?_⟩
  obtain ⟨y0, y1, y2, y3, y4, y5, y6, y7, y8, y9, y10, y11, y12, y13, y14, y15, rfl⟩ :=
    length16_cases hy.1
  obtain ⟨b0, b1, b2, b3, b4, b5, b6, b7, b8, b9, b10, b11, b12, b13, b14, b15, rfl⟩ :=
    length16_cases h1.1
  obtain ⟨c0, c1, c2, c3, c4, c5, c6, c7, c8, c9, c10, c11, c12, c13, c14, c15, rfl⟩ :=
    length16_cases h2.1
  obtain ⟨d0, d1, d2, d3, d4, d5, d6, d7, d8, d9, d10, d11, d12, d13, d14, d15, rfl⟩ :=
    length16_cases h3.1
  rw [addRoundTweakey_eval] at ea
  simp only [Option.some.injEq, Prod.mk.injEq] at ea
  obtain ⟨rfl, rfl, rfl, rfl⟩ := ea
  rw [addRoundTweakey_eval]
  simp only [xor_key_cancel]

theorem shiftRows_surj {x : List Nat} (hx : IsBytes 16 x) :
    ∃ a, IsBytes 16 a ∧ shiftRows a = some x := by
  obtain ⟨b0, b1, b2, b3, b4, b5, b6, b7, b8, b9, b10, b11, b12, b13, b14, b15, rfl⟩ :=
    length16_cases hx.1
  obtain ⟨h0, h1, h2, h3, h4, h5, h6, h7, h8, h9, h10, h11, h12, h13, h14, h15⟩ :=
    (isBytes16_iff _ _ _ _ _ _ _ _ _ _ _ _ _ _ _ _).1 hx
  exact ⟨[b0, b1, b2, b3, b5, b6, b7, b4, b10, b11, b8, b9, b15, b12, b13, b14],
    (isBytes16_iff _ _ _ _ _ _ _ _ _ _ _ _ _ _ _ _).2
      ⟨h0, h1, h2, h3, h5, h6, h7, h4, h10, h11, h8, h9, h15, h12, h13, h14⟩,
    shiftRows_eval _ _ _ _ _ _ _ _ _ _ _ _ _ _ _ _⟩

theorem mix_row0 (x y z : Nat) : y ^^^ (z ^^^ y) ^^^ (x ^^^ z) = x := by
  have h : y ^^^ (z ^^^ y) ^^^ (x ^^^ z) = x ^^^ ((y ^^^ y) ^^^ (z ^^^ z)) := by ac_rfl
  rw [h, Nat.xor_self, Nat.xor_self, Nat.xor_zero, Nat.xor_zero]

theorem mix_row2 (w y z : Nat) : w ^^^ z ^^^ y ^^^ (z ^^^ y) = w := by
  have h : w ^^^ z ^^^ y ^^^ (z ^^^ y) = w ^^^ ((y ^^^ y) ^^^ (z ^^^ z)) := by ac_rfl
  rw [h, Nat.xor_self, Nat.xor_self, Nat.xor_zero, Nat.xor_zero]

theorem mix_row3 (y z : Nat) : y ^^^ (z ^^^ y) = z := by
  have h : y ^^^ (z ^^^ y) = z ^^^ (y ^^^ y) := by ac_rfl
  rw [h, Nat.xor_self, Nat.xor_zero]

theorem mixColumns_surj {x : List Nat} (hx : IsBytes 16 x) :
    ∃ a, IsBytes 16 a ∧ mixColumns a = some x := by
  obtain ⟨x0, x1, x2, x3, x4, x5, x6, x7, x8, x9, x10, x11, x12, x13, x14, x15, rfl⟩ :=
    length16_cases hx.1
  obtain ⟨h0, h1, h2, h3, h4, h5, h6, h7, h8, h9, h10, h11, h12, h13, h14, h15⟩ :=
    (isBytes16_iff _ _ _ _ _ _ _ _ _ _ _ _ _ _ _ _).1 hx
  refine ⟨[x4, x5, x6, x7,
      x8 ^^^ x12 ^^^ x4, x9 ^^^ x13 ^^^ x5, x10 ^^^ x14 ^^^ x6, x11 ^^^ x15 ^^^ x7,
      x12 ^^^ x4, x13 ^^^ x5, x14 ^^^ x6, x15 ^^^ x7,
      x0 ^^^ x12, x1 ^^^ x13, x2 ^^^ x14, x3 ^^^ x15],
    (isBytes16_iff _ _ _ _ _ _ _ _ _ _ _ _ _ _ _ _).2
      ⟨h4, h5, h6, h7,
        xor_byte (xor_byte h8 h12) h4, xor_byte (xor_byte h9 h13) h5,
        xor_byte (xor_byte h10 h14) h6, xor_byte (xor_byte h11 h15) h7,
        xor_byte h12 h4, xor_byte h13 h5, xor_byte h14 h6, xor_byte h15 h7,
        xor_byte h0 h12, xor_byte h1 h13, xor_byte h2 h14, xor_byte h3 h15⟩, ?_⟩
  rw [mixColumns_eval]
  simp only [Nat.zero_xor, mix_row0, mix_row2, mix_row3]

theorem cipherRound_surj {r : Nat} {y T1 T2 T3 : List Nat} (hr : r < 62)
    (hy : IsBytes 16 y) (h1 : IsBytes 16 T1) (h2 : IsBytes 16 T2) (h3 : IsBytes 16 T3) :
    ∃ IS U, IsBytes 16 IS ∧ cipherRound r (IS, T1, T2, T3) = some (y, U) := by
  obtain ⟨x4, b4, e5⟩ := mixColumns_surj hy
  obtain ⟨x3, b3, e4⟩ := shiftRows_surj b4
  obtain ⟨x2, U, b2, e3⟩ := addRoundTweakey_surj b3 h1 h2 h3
  obtain ⟨x1, b1, e2⟩ := addConstants_surj hr b2
  obtain ⟨IS, b0, e1⟩ := subCells_surj b1
  refine ⟨IS, U, b0, ?_⟩
  have e1' : subCells (IS, T1, T2, T3).1 = some x1 := e1
  have e3' : addRoundTweakey x2 (IS, T1, T2, T3).2.1 (IS, T1, T2, T3).2.2.1
      (IS, T1, T2, T3).2.2.2 = some (x3, U) := e3
  simp only [cipherRound, e1', e2, e3', e4, e5, Option.bind]

theorem fold_surj (n : Nat) :
    ∀ (r : Nat) (T1 T2 T3 c : List Nat), r + n = 56 → IsBytes 16 T1 → IsBytes 16 T2 →
      IsBytes 16 T3 → IsBytes 16 c →
      ∃ IS o, IsBytes 16 IS ∧
        (List.range' r n).foldlM (fun st r => cipherRound r st) (IS, T1, T2, T3) = some o ∧
        o.1 = c := by
  induction n with
  | zero =>
    intro r T1 T2 T3 c _ _ _ _ hc
    exact ⟨c, (c, T1, T2, T3), hc, rfl, rfl⟩
  | succ n ih =>
    intro r T1 T2 T3 c hr h1 h2 h3 hc
    obtain ⟨⟨d, U1, U2, U3⟩, ed, -, k1, k2, k3⟩ :=
      @cipherRound_total r (c, T1, T2, T3) (by omega) ⟨hc, h1, h2, h3⟩
    obtain ⟨y, o, by', ey, ho⟩ := ih (r + 1) U1 U2 U3 c (by omega) k1 k2 k3 hc
    obtain ⟨IS, V, b0, eIS⟩ := cipherRound_surj (r := r) (by omega) by' h1 h2 h3
    obtain ⟨hV, -⟩ := cipherRound_inj (r := r) (by omega) ⟨b0, h1, h2, h3⟩
      ⟨hc, h1, h2, h3⟩ eIS ed
    subst hV
    refine ⟨IS, o, b0, ?_, ho⟩
    rw [List.range'_succ, List.foldlM_cons, eIS]
    exact ey

/-- C16: for every fixed 48-byte tweakey `k`, `skinny` with `k` is injective on 16-byte
blocks, equal results for the plaintexts `p1` and `p2` forcing `p1 = p2`, and it is a
permutation of the blocks: every 16-byte block `c` is the ciphertext of a 16-byte block. -/
theorem skinny_permutation (fuel : Nat) (p1 p2 k c : List Nat) (hf : 57 ≤ fuel)
    (h1 : IsBytes 16 p1) (h2 : IsBytes 16 p2) (hk : IsBytes 48 k) (hc : IsBytes 16 c) :
    (skinny fuel p1 k = skinny fuel p2 k → p1 = p2) ∧
    ∃ p, IsBytes 16 p ∧ skinny fuel p k = some c := by
  obtain ⟨-, -, -, -, b1, b2, b3⟩ := initial_copies h1 hk
  constructor
  · intro heq
    obtain ⟨c1, e1, s1, -⟩ := skinny_run hf h1 hk
    obtain ⟨c2, e2, s2, -⟩ := skinny_run hf h2 hk
    rw [e1, e2] at heq
    simp only [Option.some.injEq] at heq
    subst heq
    obtain ⟨o1, f1, -⟩ := fold_total 56 0
      (p1, k.take 16, (k.drop 16).take 16, (k.drop 32).take 16) rfl ⟨h1, b1, b2, b3⟩
    obtain ⟨o2, f2, -⟩ := fold_total 56 0
      (p2, k.take 16, (k.drop 16).take 16, (k.drop 32).take 16) rfl ⟨h2, b1, b2, b3⟩
    rw [skinnySpec, List.range_eq_range', f1] at s1
    rw [skinnySpec, List.range_eq_range', f2] at s2
    simp only [Option.map_some', Option.some.injEq] at s1 s2
    exact fold_inj 56 0 p1 p2 _ _ _ o1 o2 rfl ⟨h1, b1, b2, b3⟩ ⟨h2, b1, b2, b3⟩ f1 f2
      (s1.trans s2.symm)
  · obtain ⟨p, o, bp, ep, ho⟩ := fold_surj 56 0 _ _ _ c rfl b1 b2 b3 hc
    obtain ⟨c', e, s, -⟩ := skinny_run hf bp hk
    rw [skinnySpec, List.range_eq_range', ep] at s
    simp only [Option.map_some', Option.some.injEq] at s
    refine ⟨p, bp, ?_⟩
    rw [e, ← s, ho]

theorem skinny_permutation_witness :
    (skinny 57 katP katK = skinny 57 katC katK → katP = katC) ∧
    ∃ p, IsBytes 16 p ∧ skinny 57 p katK = some katP :=
  skinny_permutation 57 katP katC katK katP (by decide) (by decide) (by decide) (by decide)
    (by decide)

end Skinny
